import Mathlib

/-!
Image configuration resolver (`pkg/devspace/configure/image.go`)

A shallow embedding of `newImageConfigFromImageName`, `getRegistryURL` and
`newImageConfigFromDockerfile`, together with the Go standard-library
functions they call (`strings.Split`, `strings.Trim`, `strings.TrimSpace`,
`regexp.Match`).

Go strings are modelled as Lean strings and processed through their list of
characters.  Go `error` values are modelled by their message.  The interactive
collaborators (the prompter `m.log.Question` and `dockerClient.Login`) are
scripted: every call pops the next scripted result and records the call with
its arguments in a trace.
-/

namespace Configure

/-! ## Go standard library -/

/-- Go `strings.Split(s, sep)` for a one-character separator, on character
lists: the pieces between the separators, always at least one piece. -/
def splitChars (sep : Char) : List Char → List (List Char)
  | [] => [[]]
  | c :: cs =>
    if c = sep then [] :: splitChars sep cs
    else
      match splitChars sep cs with
      | [] => [[c]]
      | piece :: pieces => (c :: piece) :: pieces

/-- Go `strings.Split(s, sep)` for a one-character separator. -/
def stringsSplit (s : String) (sep : Char) : List String :=
  (splitChars sep s.data).map String.mk

/-- Go `strings.TrimLeft` on character lists. -/
def trimLeftChars (cutset : List Char) (s : List Char) : List Char :=
  s.dropWhile (fun c => decide (c ∈ cutset))

/-- Go `strings.TrimRight` on character lists. -/
def trimRightChars (cutset : List Char) (s : List Char) : List Char :=
  (trimLeftChars cutset s.reverse).reverse

/-- Go `strings.Trim(s, cutset)`: `s` with all leading and trailing characters
contained in `cutset` removed. -/
def stringsTrim (s cutset : String) : String :=
  String.mk (trimLeftChars cutset.data (trimRightChars cutset.data s.data))

/-- Go `unicode.IsSpace`: the Latin-1 spaces and the code points with the
Unicode `White_Space` property. -/
def unicodeIsSpace (c : Char) : Bool :=
  let n := c.toNat
  (0x09 ≤ n && n ≤ 0x0d) || n == 0x20 || n == 0x85 || n == 0xa0 || n == 0x1680 ||
  (0x2000 ≤ n && n ≤ 0x200a) || n == 0x2028 || n == 0x2029 || n == 0x202f ||
  n == 0x205f || n == 0x3000

/-- Go `strings.TrimSpace`. -/
def stringsTrimSpace (s : String) : String :=
  String.mk (((s.data.dropWhile unicodeIsSpace).reverse.dropWhile unicodeIsSpace).reverse)

/-! ## Configuration records (`config/versions/latest`) -/

/-- Go `error`, by its message. -/
abbrev Error := String

/-- The record `latest.BuildOptions`; only `Target` is written by this file. -/
structure BuildOptions where
  Target : String := ""
  deriving DecidableEq, Repr

/-- The record `latest.DockerConfig`; pointer fields are options. -/
structure DockerConfig where
  SkipPush : Option Bool := none
  Options : Option BuildOptions := none
  deriving DecidableEq, Repr

/-- The record `latest.KanikoConfig`; no field of it is written by this file. -/
structure KanikoConfig where
  deriving DecidableEq, Repr

/-- The record `latest.BuildConfig`. -/
structure BuildConfig where
  Disabled : Option Bool := none
  Docker : Option DockerConfig := none
  Kaniko : Option KanikoConfig := none
  deriving DecidableEq, Repr

/-- The record `latest.ImageConfig`, with Go zero values as defaults
(`""` for strings, the empty list for nil slices, `none` for nil pointers). -/
structure ImageConfig where
  Image : String := ""
  Tags : List String := []
  Dockerfile : String := ""
  Context : String := ""
  CreatePullSecret : Option Bool := none
  Build : Option BuildConfig := none
  InjectRestartHelper : Bool := false
  PreferSyncOverRebuild : Bool := false
  AppendDockerfileInstructions : List String := []
  deriving DecidableEq, Repr

/-- Reads `cfg.Build.Docker.SkipPush` through the nil-able pointers. -/
def ImageConfig.skipPush (cfg : ImageConfig) : Option Bool :=
  match cfg.Build with
  | none => none
  | some b =>
    match b.Docker with
    | none => none
    | some dk => dk.SkipPush

/-- Reads `cfg.Build.Docker.Options.Target` through the nil-able pointers. -/
def ImageConfig.target (cfg : ImageConfig) : Option String :=
  match cfg.Build with
  | none => none
  | some b =>
    match b.Docker with
    | none => none
    | some dk =>
      match dk.Options with
      | none => none
      | some o => some o.Target

/-- Record `types.AuthConfig` of the Docker client, as far as it is read. -/
structure AuthConfig where
  Username : String := ""
  Password : String := ""
  deriving DecidableEq, Repr

/-! ## Constants -/

def dockerHubHostname : String := "hub.docker.com"

def noRegistryImage : String := "devspace"

/-- Collaborators whose result does not depend on the dialogue: the two
constants of package `helper`, the kube-config loader, the Docker client
factory and its credential store, the `docker` and `gcloud` executables, the
Dockerfile inspector and the image-name normaliser of package `registry`. -/
structure Deps where
  DefaultDockerfilePath : String
  DefaultContextPath : String
  GetCurrentContext : Except Error String
  NewDockerClientWithMinikube : String → Option Error
  Ping : Option Error
  dockerRun : Option Error
  GetAuthConfig : String → Bool → Except Error AuthConfig
  gcloudProject : Except Error String
  GetDockerfileTargets : String → Except Error (List String)
  GetStrippedDockerImageName : String → String × Option Error

/-! ## `newImageConfigFromImageName` -/

/-- Lines 24–57: the image config of a plain image name. -/
def newImageConfigFromImageName (d : Deps) (imageName dockerfile context : String) :
    ImageConfig :=
  let splittedImage := stringsSplit imageName ':'
  let imageName := splittedImage.headD ""
  let imageTag :=
    if splittedImage.length > 1 then splittedImage.getD 1 ""
    else if dockerfile = "" then "latest"
    else ""
  let retImageConfig : ImageConfig := { Image := imageName, CreatePullSecret := some true }
  let retImageConfig :=
    if imageTag ≠ "" then { retImageConfig with Tags := [imageTag] } else retImageConfig
  if dockerfile = "" then
    { retImageConfig with Build := some { Disabled := some true } }
  else
    let retImageConfig :=
      if dockerfile ≠ d.DefaultDockerfilePath then
        { retImageConfig with Dockerfile := dockerfile }
      else retImageConfig
    if context ≠ "" ∧ context ≠ d.DefaultContextPath then
      { retImageConfig with Context := context }
    else retImageConfig

/-! ## Go `regexp` -/

/-- Regular expressions as far as the pattern of this file needs them. `any`
is Go's `.` without the `s` flag: every character except the newline. -/
inductive Regexp where
  | none : Regexp
  | eps : Regexp
  | lit : Char → Regexp
  | any : Regexp
  | cat : Regexp → Regexp → Regexp
  | alt : Regexp → Regexp → Regexp
  | star : Regexp → Regexp
  deriving DecidableEq, Repr

namespace Regexp

/-- The pattern `r+`. -/
def plus (r : Regexp) : Regexp := cat r (star r)

/-- The pattern `(r)?`. -/
def opt (r : Regexp) : Regexp := alt r eps

/-- Whether the expression accepts the empty text. -/
def nullable : Regexp → Bool
  | none => false
  | eps => true
  | lit _ => false
  | any => false
  | cat r s => nullable r && nullable s
  | alt r s => nullable r || nullable s
  | star _ => true

/-- Brzozowski derivative: what remains to be matched after reading `c`. -/
def deriv (c : Char) : Regexp → Regexp
  | none => none
  | eps => none
  | lit a => if a = c then eps else none
  | any => if c = '\n' then none else eps
  | cat r s => if nullable r then alt (cat (deriv c r) s) (deriv c s) else cat (deriv c r) s
  | alt r s => alt (deriv c r) (deriv c s)
  | star r => cat (deriv c r) (star r)

/-- Whether the whole text matches the expression. -/
def matchChars (r : Regexp) : List Char → Bool
  | [] => nullable r
  | c :: cs => matchChars (deriv c r) cs

end Regexp

/-- Go `regexp.MustCompile(p).Match([]byte(s))` for a pattern `p` of the form
`^r$`: without the `m` flag the anchors are the ends of the text, so that the
search succeeds exactly when the whole text matches `r`. -/
def regexpMatch (r : Regexp) (s : String) : Bool := r.matchChars s.data

/-- The pattern `^(.+\.)?gcr.io$` of line 123, without its anchors. The dot
between `gcr` and `io` is not escaped in the source. -/
def gcrRegexp : Regexp :=
  .cat (.opt (.cat (.plus .any) (.lit '.')))
    (.cat (.lit 'g') (.cat (.lit 'c') (.cat (.lit 'r')
      (.cat .any (.cat (.lit 'i') (.lit 'o'))))))

/-! ## Scripted collaborators -/

/-- Record `survey.QuestionOptions`. `ValidationFunc` records whether the
question carries the validation closure, which in this file is always the
check that `registry.GetStrippedDockerImageName` returns no error. -/
structure QuestionOptions where
  Question : String := ""
  DefaultValue : String := ""
  ValidationRegexPattern : String := ""
  ValidationMessage : String := ""
  ValidationFunc : Bool := false
  Options : List String := []
  IsPassword : Bool := false
  deriving DecidableEq, Repr

/-- A call on the logger/prompter `m.log` or on `dockerClient.Login`. -/
inductive Call where
  | Question (params : QuestionOptions)
  | Login (registryURL user password : String)
      (checkCredentialsStore saveAuthConfig relogin : Bool)
  | Warn (msg : String)
  | StartWait (msg : String)
  | StopWait
  deriving DecidableEq, Repr

/-- The dialogue: the scripted results of the coming `Question` and `Login`
calls, and the calls made so far. -/
structure Env where
  questions : List (Except Error String)
  logins : List (Except Error AuthConfig)
  trace : List Call

/-- A step of the dialogue: `none` when the script has no result left for a
call, otherwise a Go `(value, error)` result and the new dialogue state. -/
def Script (α : Type) : Type := Env → Option (Except Error α × Env)

namespace Script

/-- A Go `return v, nil`. -/
def ret {α : Type} (a : α) : Script α := fun env => some (.ok a, env)

/-- A Go `return _, err`. -/
def fail {α : Type} (e : Error) : Script α := fun env => some (.error e, env)

/-- Sequencing with the Go idiom `if err != nil { return _, err }`. -/
def andThen {α β : Type} (x : Script α) (f : α → Script β) : Script β := fun env =>
  match x env with
  | Option.none => Option.none
  | some (.error e, env1) => some (.error e, env1)
  | some (.ok a, env1) => f a env1

instance : Monad Script where
  pure := ret
  bind := andThen

/-- A result `(value, error)` that is already known. -/
def ofExcept {α : Type} : Except Error α → Script α
  | .ok a => ret a
  | .error e => fail e

end Script

/-- The call `m.log.Question(params)`: the next scripted answer. -/
def Question (params : QuestionOptions) : Script String := fun env =>
  match env.questions with
  | [] => none
  | r :: rest =>
    some (r, { env with questions := rest, trace := env.trace ++ [Call.Question params] })

/-- The call `dockerClient.Login(...)`: the next scripted result, handed to
the caller with its error. -/
def Login (registryURL user password : String)
    (checkCredentialsStore saveAuthConfig relogin : Bool) : Script (Except Error AuthConfig) :=
  fun env =>
    match env.logins with
    | [] => none
    | r :: rest =>
      some (.ok r, { env with
        logins := rest
        trace := env.trace ++
          [Call.Login registryURL user password checkCredentialsStore saveAuthConfig relogin] })

/-- The call `m.log.Warn(msg)`. -/
def Warn (msg : String) : Script Unit := fun env =>
  some (.ok (), { env with trace := env.trace ++ [Call.Warn msg] })

/-- The call `m.log.StartWait(msg)`. -/
def StartWait (msg : String) : Script Unit := fun env =>
  some (.ok (), { env with trace := env.trace ++ [Call.StartWait msg] })

/-- The call `m.log.StopWait()`. -/
def StopWait : Script Unit := fun env =>
  some (.ok (), { env with trace := env.trace ++ [Call.StopWait] })

/-! ## `getRegistryURL` -/

/-- Line 220. -/
def skipImagePush : String :=
  "Always skip image push (advanced, config will not work with remote clusters)"

/-- Line 221. -/
def useOtherRegistry : String := "Use other registry"

/-- Lines 219 and 227–231: the Docker Hub option, with the user name when the
credential store knows one. -/
def useDockerHub (d : Deps) : String :=
  match d.GetAuthConfig dockerHubHostname true with
  | .ok authConfig =>
    if authConfig.Username ≠ "" then
      "Use " ++ dockerHubHostname ++ (" => you are logged in as " ++ authConfig.Username)
    else "Use " ++ dockerHubHostname
  | .error _ => "Use " ++ dockerHubHostname

/-- Line 224 after `fmt.Sprintf(registryLoginHint, arg)`. -/
def registryLoginHint (arg : String) : String :=
  "Please login via `docker login" ++ arg ++ "` and try again."

/-- Lines 272–276. -/
def usernameQuestion : QuestionOptions :=
  { Question := "What is your Docker Hub username?"
    DefaultValue := ""
    ValidationRegexPattern := "^.*$" }

/-- Lines 281–286. -/
def passwordQuestion : QuestionOptions :=
  { Question := "What is your Docker Hub password? (will only be sent to Docker Hub)"
    DefaultValue := ""
    ValidationRegexPattern := "^.*$"
    IsPassword := true }

/-- Lines 271–298, the `for` loop, unrolled at most `fuel` times. -/
def dockerHubLoginLoop (registryURL : String) : Nat → Script Unit
  | 0 => fun _ => none
  | fuel + 1 => do
    let dockerUsername ← Question usernameQuestion
    let dockerPassword ← Question passwordQuestion
    let r ← Login registryURL dockerUsername dockerPassword false true true
    match r with
    | .error err => do
      Warn err
      dockerHubLoginLoop registryURL fuel
    | .ok _ => pure ()

/-- The `for` loop of lines 271–298. Every turn asks a question first, so the
number of scripted answers left bounds the number of turns: the loop never
stops for lack of fuel before the script is used up. -/
def dockerHubLogin (registryURL : String) : Script Unit := fun env =>
  dockerHubLoginLoop registryURL env.questions.length env

/-- Lines 235–239. -/
def registryQuestion (d : Deps) : QuestionOptions :=
  { Question := "Which registry do you want to use for storing your Docker images?"
    DefaultValue := useDockerHub d
    Options := [useDockerHub d, useOtherRegistry, skipImagePush] }

/-- Lines 250–253. -/
def registryURLQuestion : QuestionOptions :=
  { Question := "Please enter the registry URL without image name:"
    DefaultValue := "my.registry.tld/username" }

/-- Lines 217–305. The two `%s` verbs of `fmt.Sprintf` and `errors.Errorf`
are filled by concatenation. -/
def getRegistryURL (d : Deps) : Script String := do
  let selectedRegistry ← Question (registryQuestion d)
  if selectedRegistry = skipImagePush then
    pure ""
  else do
    let (registryURL, registryLoginHint) ←
      (if selectedRegistry = useDockerHub d then
        pure (dockerHubHostname, "Please login via `docker login%s` and try again.")
      else do
        let registryURL ← Question registryURLQuestion
        let registryURL := stringsTrim registryURL "/ "
        pure (registryURL, registryLoginHint (" " ++ registryURL)) : Script (String × String))
    StartWait "Checking registry authentication"
    let r ← Login registryURL "" "" true false false
    StopWait
    let failed : Bool :=
      match r with
      | .error _ => true
      | .ok authConfig => authConfig.Username = ""
    if failed then
      if registryURL = dockerHubHostname then do
        Warn "You are not logged in to Docker Hub"
        Warn "Please make sure you have a https://hub.docker.com account"
        Warn "Installing docker is NOT required. You simply need a Docker Hub account\n"
        dockerHubLogin registryURL
        pure registryURL
      else
        Script.fail ("Registry authentication failed for " ++ registryURL ++
          ".\n         " ++ registryLoginHint)
    else
      pure registryURL

/-! ## `newImageConfigFromDockerfile` -/

/-- Lines 109–117. -/
def dockerHubImageQuestion (dockerUsername imageName : String) : QuestionOptions :=
  { Question := "Which image name do you want to use on Docker Hub?"
    DefaultValue := dockerUsername ++ "/" ++ imageName
    ValidationMessage := "Please enter a valid image name for Docker Hub (e.g. myregistry.com/user/repository | allowed charaters: /, a-z, 0-9)"
    ValidationFunc := true }

/-- Lines 131–139. -/
def gcrImageQuestion (registryURL gcloudProject imageName : String) : QuestionOptions :=
  { Question := "Which image name do you want to push to?"
    DefaultValue := registryURL ++ "/" ++ gcloudProject ++ "/" ++ imageName
    ValidationMessage := "Please enter a valid Docker image name (e.g. myregistry.com/user/repository | allowed charaters: /, a-z, 0-9)"
    ValidationFunc := true }

/-- Lines 150–158. -/
def otherImageQuestion (registryURL dockerUsername imageName : String) : QuestionOptions :=
  { Question := "Which image name do you want to push to?"
    DefaultValue := registryURL ++ "/" ++ dockerUsername ++ "/" ++ imageName
    ValidationMessage := "Please enter a valid docker image name (e.g. myregistry.com/user/repository)"
    ValidationFunc := true }

/-- Lines 99–164 of `newImageConfigFromDockerfile`: the image name for the
registry host returned by `getRegistryURL`. `dockerUsername` is `""` on
entry (line 62). -/
def imageNameForRegistry (d : Deps) (registryURL imageName dockerUsername : String) :
    Script String :=
  if registryURL = "" then
    pure noRegistryImage
  else if registryURL = "hub.docker.com" then do
    StartWait "Checking Docker credentials"
    let r := d.GetAuthConfig "" true
    StopWait
    let dockerUsername :=
      match r with
      | .ok dockerAuthConfig => dockerAuthConfig.Username
      | .error _ => dockerUsername
    let imageName ← Question (dockerHubImageQuestion dockerUsername imageName)
    pure (d.GetStrippedDockerImageName imageName).1
  else if regexpMatch gcrRegexp registryURL then do
    let gcloudProject :=
      match d.gcloudProject with
      | .ok project => stringsTrimSpace project
      | .error _ => "myGCloudProject"
    let imageName ← Question (gcrImageQuestion registryURL gcloudProject imageName)
    pure (d.GetStrippedDockerImageName imageName).1
  else do
    let dockerUsername := if dockerUsername = "" then "myuser" else dockerUsername
    let imageName ← Question (otherImageQuestion registryURL dockerUsername imageName)
    pure (d.GetStrippedDockerImageName imageName).1

/-- Lines 84–92 of `newImageConfigFromDockerfile`: the warning when the daemon
does not answer but the `docker` executable runs. -/
def checkDockerInstalled (d : Deps) : Script Unit :=
  match d.Ping with
  | some _ =>
    match d.dockerRun with
    | none =>
      Warn "Docker daemon not running. Start Docker daemon to build images with Docker instead of using the kaniko fallback."
    | some _ => pure ()
  | none => pure ()

/-- Lines 61–164 of `newImageConfigFromDockerfile`: everything up to the final
image name. -/
def resolveImageName (d : Deps) (imageName : String) : Script String := do
  let dockerUsername := ""
  let kubeContext ← Script.ofExcept d.GetCurrentContext
  match d.NewDockerClientWithMinikube kubeContext with
  | some err => Script.fail ("Cannot create docker client: " ++ err)
  | none => do
    checkDockerInstalled d
    let registryURL ← getRegistryURL d
    imageNameForRegistry d registryURL imageName dockerUsername

/-- Line 172. -/
def targetNone : String := "[none] (build complete Dockerfile)"

/-- Lines 174–177. -/
def targetQuestion (targets : List String) : QuestionOptions :=
  { Question := "Which build stage (target) within your Dockerfile do you want to use for development?\n  Choose `build` for quickstart projects."
    Options := targets }

/-- Lines 166–191 of `newImageConfigFromDockerfile`: the build target. -/
def chooseBuildTarget (d : Deps) (dockerfile : String) (retImageConfig : ImageConfig) :
    Script ImageConfig := do
  let targets ← Script.ofExcept (d.GetDockerfileTargets dockerfile)
  if targets.length > 0 then do
    let targets := targets ++ [targetNone]
    let target ← Question (targetQuestion targets)
    if target ≠ targetNone then
      pure { retImageConfig with
        Build := some { Docker := some { Options := some { Target := target } } } }
    else pure retImageConfig
  else pure retImageConfig

/-- Lines 193–214 of `newImageConfigFromDockerfile`: the final record. -/
def setImageSpecifics (d : Deps) (retImageConfig : ImageConfig)
    (imageName dockerfile context : String) : ImageConfig :=
  let retImageConfig := { retImageConfig with Image := imageName }
  let retImageConfig :=
    if dockerfile ≠ d.DefaultDockerfilePath then
      { retImageConfig with Dockerfile := dockerfile }
    else retImageConfig
  let retImageConfig :=
    if context ≠ "" ∧ context ≠ d.DefaultContextPath then
      { retImageConfig with Context := context }
    else retImageConfig
  if imageName = noRegistryImage then
    let build : BuildConfig :=
      match retImageConfig.Build with
      | none => {}
      | some b => b
    let docker : DockerConfig :=
      match build.Docker with
      | none => {}
      | some dk => dk
    { retImageConfig with
      Build := some { build with Docker := some { docker with SkipPush := some true } } }
  else retImageConfig

/-- Lines 63–69: the initial value of `retImageConfig`. -/
def initialImageConfig : ImageConfig :=
  { InjectRestartHelper := true
    PreferSyncOverRebuild := true
    AppendDockerfileInstructions := ["USER root"] }

/-- Lines 60–215. -/
def newImageConfigFromDockerfile (d : Deps) (imageName dockerfile context : String) :
    Script ImageConfig := do
  let retImageConfig : ImageConfig := initialImageConfig
  let imageName ← resolveImageName d imageName
  let retImageConfig ← chooseBuildTarget d dockerfile retImageConfig
  pure (setImageSpecifics d retImageConfig imageName dockerfile context)

/-! ## Expected dialogues and example collaborators -/

/-- The texts an expression denotes. -/
inductive Regexp.Matches : Regexp → List Char → Prop
  | eps : Matches .eps []
  | lit (c : Char) : Matches (.lit c) [c]
  | any (c : Char) : c ≠ '\n' → Matches .any [c]
  | cat {r r2 : Regexp} {s s2 t : List Char} :
      Matches r s → Matches r2 s2 → t = s ++ s2 → Matches (.cat r r2) t
  | altL {r r2 : Regexp} {s : List Char} : Matches r s → Matches (.alt r r2) s
  | altR {r r2 : Regexp} {s : List Char} : Matches r2 s → Matches (.alt r r2) s
  | starNil {r : Regexp} : Matches (.star r) []
  | starCons {r : Regexp} {s s2 t : List Char} :
      Matches r s → Matches (.star r) s2 → t = s ++ s2 → Matches (.star r) t

/-- The answers scripted for a run of failed credential attempts
`(username, password, login error)`. -/
def attemptAnswers : List (String × String × Error) → List (Except Error String)
  | [] => []
  | (u, p, _) :: more => .ok u :: .ok p :: attemptAnswers more

/-- The login results scripted for a run of failed credential attempts. -/
def attemptResults : List (String × String × Error) → List (Except Error AuthConfig)
  | [] => []
  | (_, _, e) :: more => .error e :: attemptResults more

/-- The calls expected of a run of failed credential attempts: per attempt
both prompts, the login with the values just entered and the warning. -/
def attemptCalls (registryURL : String) : List (String × String × Error) → List Call
  | [] => []
  | (u, p, e) :: more =>
    Call.Question usernameQuestion :: Call.Question passwordQuestion ::
      Call.Login registryURL u p false true true :: Call.Warn e ::
      attemptCalls registryURL more

/-- The user name prompt of the credential loop. -/
def Call.isUsernamePrompt : Call → Bool
  | .Question q => decide (q = usernameQuestion)
  | _ => false

/-- The password prompt of the credential loop. -/
def Call.isPasswordPrompt : Call → Bool
  | .Question q => decide (q = passwordQuestion)
  | _ => false

/-- A login with entered credentials (`checkCredentialsStore = false`). -/
def Call.isExplicitLogin : Call → Bool
  | .Login _ _ _ false _ _ => true
  | _ => false

/-- The two ways to reach the host `hub.docker.com`: the Docker Hub option
(`none`), or the other-registry option with a typed host (`some typed`). -/
def hubSelection (d : Deps) : Option String → List (Except Error String)
  | none => [.ok (useDockerHub d)]
  | some typed => [.ok useOtherRegistry, .ok typed]

/-- The calls expected for `hubSelection`. -/
def hubSelectionCalls (d : Deps) : Option String → List Call
  | none => [Call.Question (registryQuestion d)]
  | some _ => [Call.Question (registryQuestion d), Call.Question registryURLQuestion]

/-- The calls expected of the silent credential check of lines 262–269 when it
fails for Docker Hub. -/
def silentCheckCalls : List Call :=
  [Call.StartWait "Checking registry authentication",
   Call.Login "hub.docker.com" "" "" true false false,
   Call.StopWait,
   Call.Warn "You are not logged in to Docker Hub",
   Call.Warn "Please make sure you have a https://hub.docker.com account",
   Call.Warn "Installing docker is NOT required. You simply need a Docker Hub account\n"]

/-- The calls expected of `checkDockerInstalled`. -/
def dockerCheckCalls (d : Deps) : List Call :=
  match d.Ping, d.dockerRun with
  | some _, none =>
    [Call.Warn "Docker daemon not running. Start Docker daemon to build images with Docker instead of using the kaniko fallback."]
  | _, _ => []

def exampleDeps : Deps :=
  { DefaultDockerfilePath := "./Dockerfile"
    DefaultContextPath := "./"
    GetCurrentContext := .ok "minikube"
    NewDockerClientWithMinikube := fun _ => none
    Ping := none
    dockerRun := none
    GetAuthConfig := fun _ _ => .error "no credentials"
    gcloudProject := .error "gcloud not found"
    GetDockerfileTargets := fun _ => .ok []
    GetStrippedDockerImageName := fun s => (s, none) }

def exampleStagesDeps : Deps :=
  { exampleDeps with GetDockerfileTargets := fun _ => .ok ["build", "run"] }

/-! ## Go standard library: lemmas -/

theorem splitChars_of_not_mem (sep : Char) :
    ∀ l : List Char, sep ∉ l → splitChars sep l = [l]
  | [], _ => rfl
  | c :: cs, h => by
    have hc : c ≠ sep := fun e => h (by simp [e])
    have hcs : sep ∉ cs := fun m => h (List.mem_cons_of_mem _ m)
    simp [splitChars, hc, splitChars_of_not_mem sep cs hcs]

theorem splitChars_ne_nil (sep : Char) : ∀ l : List Char, splitChars sep l ≠ []
  | [] => by simp [splitChars]
  | c :: cs => by
    unfold splitChars
    split
    · simp
    · split <;> simp

theorem splitChars_append_sep (sep : Char) :
    ∀ (a rest : List Char), sep ∉ a →
      splitChars sep (a ++ sep :: rest) = a :: splitChars sep rest
  | [], rest, _ => by simp [splitChars]
  | c :: cs, rest, h => by
    have hc : c ≠ sep := fun e => h (by simp [e])
    have hcs : sep ∉ cs := fun m => h (List.mem_cons_of_mem _ m)
    simp [splitChars, hc, splitChars_append_sep sep cs rest hcs]

theorem splitChars_two (sep : Char) (a b rest : List Char) (ha : sep ∉ a) (hb : sep ∉ b)
    (hrest : rest = [] ∨ ∃ m, rest = sep :: m) :
    ∃ pieces, splitChars sep (a ++ sep :: (b ++ rest)) = a :: b :: pieces := by
  rw [splitChars_append_sep sep a _ ha]
  rcases hrest with h | ⟨m, h⟩
  · subst h
    exact ⟨[], by simp [splitChars_of_not_mem sep b hb]⟩
  · subst h
    exact ⟨splitChars sep m, by rw [splitChars_append_sep sep b m hb]⟩

theorem split_at_first (c : Char) :
    ∀ l : List Char, ∃ a r, l = a ++ r ∧ c ∉ a ∧ (r = [] ∨ ∃ r1, r = c :: r1)
  | [] => ⟨[], [], rfl, by simp, Or.inl rfl⟩
  | x :: xs => by
    by_cases hx : x = c
    · exact ⟨[], x :: xs, rfl, by simp, Or.inr ⟨xs, by rw [hx]⟩⟩
    · obtain ⟨a, r, h1, h2, h3⟩ := split_at_first c xs
      exact ⟨x :: a, r, by simp [h1], by simp [h2, Ne.symm hx], h3⟩

/-- Every text with a colon is a colon-free name, the colon, a colon-free tag
and a rest that is empty or begins with a colon. -/
theorem colon_decomposition (raw : String) (h : ':' ∈ raw.data) :
    ∃ name tag more : String, raw = name ++ ":" ++ tag ++ more ∧
      ':' ∉ name.data ∧ ':' ∉ tag.data ∧ (more = "" ∨ ∃ m : String, more = ":" ++ m) := by
  obtain ⟨a, r, h1, h2, h3⟩ := split_at_first ':' raw.data
  rcases h3 with rfl | ⟨r1, rfl⟩
  · rw [h1] at h
    simp at h
    exact absurd h h2
  · obtain ⟨b, m, h4, h5, h6⟩ := split_at_first ':' r1
    refine ⟨String.mk a, String.mk b, String.mk m, ?_, h2, h5, ?_⟩
    · apply String.ext
      simp [String.data_append, h1, h4]
    · rcases h6 with rfl | ⟨m1, rfl⟩
      · exact Or.inl rfl
      · exact Or.inr ⟨String.mk m1, String.ext (by simp [String.data_append])⟩

theorem dropWhile_head_not (p : Char → Bool) (l : List Char) (c : Char)
    (h : (l.dropWhile p).head? = some c) : p c = false := by
  have := List.head?_dropWhile_not p l
  rw [h] at this
  exact this

theorem dropWhile_split (p : Char → Bool) (l : List Char) :
    ∃ pre, l = pre ++ l.dropWhile p ∧ ∀ c ∈ pre, p c = true :=
  ⟨l.takeWhile p, (List.takeWhile_append_dropWhile p l).symm,
    fun _ hc => List.mem_takeWhile_imp hc⟩

theorem dropWhile_getLast (p : Char → Bool) (l : List Char) (c : Char)
    (h : (l.dropWhile p).getLast? = some c) : l.getLast? = some c := by
  obtain ⟨pre, hpre, -⟩ := dropWhile_split p l
  rw [hpre, List.getLast?_append, h]
  rfl

theorem trimChars_spec (cutset l : List Char) :
    (∀ c, (trimLeftChars cutset (trimRightChars cutset l)).head? = some c → c ∉ cutset) ∧
    (∀ c, (trimLeftChars cutset (trimRightChars cutset l)).getLast? = some c → c ∉ cutset) ∧
    ∃ pre suf, l = pre ++ trimLeftChars cutset (trimRightChars cutset l) ++ suf ∧
      (∀ c ∈ pre, c ∈ cutset) ∧ (∀ c ∈ suf, c ∈ cutset) := by
  refine ⟨?_, ?_, ?_⟩
  · intro c hc
    have := dropWhile_head_not _ _ c hc
    simpa using this
  · intro c hc
    have h1 := dropWhile_getLast _ _ c hc
    unfold trimRightChars trimLeftChars at h1
    rw [List.getLast?_reverse] at h1
    have := dropWhile_head_not _ _ c h1
    simpa using this
  · obtain ⟨pre, hpre, hp⟩ := dropWhile_split (fun c => decide (c ∈ cutset))
      (trimRightChars cutset l)
    obtain ⟨suf, hsuf, hs⟩ := dropWhile_split (fun c => decide (c ∈ cutset)) l.reverse
    refine ⟨pre, suf.reverse, ?_, ?_, ?_⟩
    · have h2 : l = trimRightChars cutset l ++ suf.reverse := by
        have := congrArg List.reverse hsuf
        simpa [trimRightChars, trimLeftChars] using this
      unfold trimLeftChars
      rw [← hpre]
      exact h2
    · intro c hc; simpa using hp c hc
    · intro c hc; simpa using hs c (by simpa using hc)

namespace Regexp

theorem matches_nil_of_nullable : ∀ r : Regexp, nullable r = true → Matches r []
  | .none, h => by simp [nullable] at h
  | .eps, _ => .eps
  | .lit _, h => by simp [nullable] at h
  | .any, h => by simp [nullable] at h
  | .cat r s, h => by
    simp [nullable] at h
    exact .cat (matches_nil_of_nullable r h.1) (matches_nil_of_nullable s h.2) rfl
  | .alt r s, h => by
    simp [nullable] at h
    rcases h with h | h
    · exact .altL (matches_nil_of_nullable r h)
    · exact .altR (matches_nil_of_nullable s h)
  | .star _, _ => .starNil

theorem nullable_of_matches {r : Regexp} {t : List Char} (h : Matches r t) :
    t = [] → nullable r = true := by
  induction h with
  | eps => intro _; rfl
  | lit c => intro h; cases h
  | any c _ => intro h; cases h
  | cat _ _ ht ih1 ih2 =>
    intro h
    subst ht
    simp at h
    simp [nullable, ih1 h.1, ih2 h.2]
  | altL _ ih => intro h; simp [nullable, ih h]
  | altR _ ih => intro h; simp [nullable, ih h]
  | starNil => intro _; rfl
  | starCons _ _ _ _ _ => intro _; rfl

theorem nullable_iff (r : Regexp) : nullable r = true ↔ Matches r [] :=
  ⟨matches_nil_of_nullable r, fun h => nullable_of_matches h rfl⟩

theorem matches_of_deriv (c : Char) :
    ∀ (r : Regexp) (s : List Char), Matches (deriv c r) s → Matches r (c :: s)
  | .none, s, h => by simp [deriv] at h; cases h
  | .eps, s, h => by simp [deriv] at h; cases h
  | .lit a, s, h => by
    by_cases hac : a = c
    · subst hac
      simp [deriv] at h
      cases h
      exact .lit a
    · simp [deriv, hac] at h
      cases h
  | .any, s, h => by
    by_cases hc : c = '\n'
    · simp [deriv, hc] at h
      cases h
    · simp [deriv, hc] at h
      cases h
      exact .any c hc
  | .cat r1 r2, s, h => by
    by_cases hn : nullable r1 = true
    · simp [deriv, hn] at h
      cases h with
      | altL h1 =>
        cases h1 with
        | cat ha hb ht =>
          subst ht
          exact .cat (matches_of_deriv c r1 _ ha) hb rfl
      | altR h2 =>
        exact .cat (matches_nil_of_nullable r1 hn) (matches_of_deriv c r2 _ h2) rfl
    · simp [deriv, hn] at h
      cases h with
      | cat ha hb ht =>
        subst ht
        exact .cat (matches_of_deriv c r1 _ ha) hb rfl
  | .alt r1 r2, s, h => by
    simp [deriv] at h
    cases h with
    | altL h1 => exact .altL (matches_of_deriv c r1 _ h1)
    | altR h2 => exact .altR (matches_of_deriv c r2 _ h2)
  | .star r, s, h => by
    simp [deriv] at h
    cases h with
    | cat ha hb ht =>
      subst ht
      exact .starCons (matches_of_deriv c r _ ha) hb rfl

theorem deriv_of_matches {r : Regexp} {t : List Char} (h : Matches r t) :
    ∀ (c : Char) (s : List Char), t = c :: s → Matches (deriv c r) s := by
  induction h with
  | eps => intro c s h; cases h
  | lit a =>
    intro c s h
    cases h
    simp [deriv]
    exact .eps
  | any a ha =>
    intro c s h
    cases h
    simp [deriv, ha]
    exact .eps
  | @cat r1 r2 s1 s2 t h1 h2 ht ih1 ih2 =>
    intro c s h
    subst ht
    cases s1 with
    | nil =>
      have hn := nullable_of_matches h1 rfl
      simp at h
      simp [deriv, hn]
      exact .altR (ih2 c s h)
    | cons a s1 =>
      simp at h
      obtain ⟨rfl, rfl⟩ := h
      have hd : Matches (.cat (deriv a r1) r2) (s1 ++ s2) := .cat (ih1 a s1 rfl) h2 rfl
      by_cases hn : nullable r1 = true
      · simp [deriv, hn]
        exact .altL hd
      · simp [deriv, hn]
        exact hd
  | altL _ ih => intro c s h; simp [deriv]; exact .altL (ih c s h)
  | altR _ ih => intro c s h; simp [deriv]; exact .altR (ih c s h)
  | starNil => intro c s h; cases h
  | @starCons r s1 s2 t h1 h2 ht ih1 ih2 =>
    intro c s h
    subst ht
    cases s1 with
    | nil =>
      simp at h
      exact ih2 c s h
    | cons a s1 =>
      simp at h
      obtain ⟨rfl, rfl⟩ := h
      simp [deriv]
      exact .cat (ih1 a s1 rfl) h2 rfl

/-- The derivative matcher decides the denotation. -/
theorem matchChars_iff : ∀ (s : List Char) (r : Regexp), matchChars r s = true ↔ Matches r s
  | [], r => by simp [matchChars, nullable_iff]
  | c :: cs, r => by
    simp only [matchChars]
    rw [matchChars_iff cs (deriv c r)]
    exact ⟨matches_of_deriv c r cs, fun h => deriv_of_matches h c cs rfl⟩

end Regexp

namespace Regexp

theorem matches_eps_iff (s : List Char) : Matches .eps s ↔ s = [] :=
  ⟨fun h => by cases h; rfl, fun h => h ▸ .eps⟩

theorem matches_lit_iff (a : Char) (s : List Char) : Matches (.lit a) s ↔ s = [a] :=
  ⟨fun h => by cases h; rfl, fun h => h ▸ .lit a⟩

theorem matches_any_iff (s : List Char) : Matches .any s ↔ ∃ c, c ≠ '\n' ∧ s = [c] :=
  ⟨fun h => by cases h with | any c hc => exact ⟨c, hc, rfl⟩,
    fun ⟨c, hc, h⟩ => h ▸ .any c hc⟩

theorem matches_cat_iff (a b : Regexp) (s : List Char) :
    Matches (.cat a b) s ↔ ∃ s1 s2, Matches a s1 ∧ Matches b s2 ∧ s = s1 ++ s2 :=
  ⟨fun h => by cases h with | cat h1 h2 ht => exact ⟨_, _, h1, h2, ht⟩,
    fun ⟨_, _, h1, h2, ht⟩ => .cat h1 h2 ht⟩

theorem matches_alt_iff (a b : Regexp) (s : List Char) :
    Matches (.alt a b) s ↔ Matches a s ∨ Matches b s :=
  ⟨fun h => by
      cases h with
      | altL h1 => exact Or.inl h1
      | altR h2 => exact Or.inr h2,
    fun h => h.elim .altL .altR⟩

theorem no_newline_of_star_any {r : Regexp} {t : List Char} (h : Matches r t) :
    r = .star .any → '\n' ∉ t := by
  induction h with
  | eps => intro h; cases h
  | lit c => intro h; cases h
  | any c _ => intro h; cases h
  | cat _ _ _ _ _ => intro h; cases h
  | altL _ _ => intro h; cases h
  | altR _ _ => intro h; cases h
  | starNil => intro _; simp
  | starCons h1 _ ht _ ih2 =>
    intro h
    cases h
    subst ht
    obtain ⟨c, hc, rfl⟩ := (matches_any_iff _).mp h1
    have := ih2 rfl
    simp [this, Ne.symm hc]

theorem star_any_of_no_newline : ∀ t : List Char, '\n' ∉ t → Matches (.star .any) t
  | [], _ => .starNil
  | c :: cs, h => by
    simp at h
    exact .starCons (.any c (Ne.symm h.1)) (star_any_of_no_newline cs h.2) rfl

theorem matches_star_any_iff (t : List Char) : Matches (.star .any) t ↔ '\n' ∉ t :=
  ⟨fun h => no_newline_of_star_any h rfl, star_any_of_no_newline t⟩

theorem matches_plus_any_iff (t : List Char) :
    Matches (plus .any) t ↔ t ≠ [] ∧ '\n' ∉ t := by
  simp only [plus, matches_cat_iff, matches_any_iff, matches_star_any_iff]
  constructor
  · rintro ⟨s1, s2, ⟨c, hc, rfl⟩, h2, rfl⟩
    simp [h2, Ne.symm hc]
  · rintro ⟨h1, h2⟩
    cases t with
    | nil => exact absurd rfl h1
    | cons c cs =>
      simp at h2
      exact ⟨[c], cs, ⟨c, Ne.symm h2.1, rfl⟩, h2.2, rfl⟩

end Regexp

/-- The hosts that line 123 takes for a Google registry. -/
theorem gcrRegexp_matches_iff (s : List Char) :
    gcrRegexp.Matches s ↔
      ∃ c, c ≠ '\n' ∧
        (s = ['g', 'c', 'r', c, 'i', 'o'] ∨
          ∃ q, q ≠ [] ∧ '\n' ∉ q ∧ s = q ++ '.' :: ['g', 'c', 'r', c, 'i', 'o']) := by
  simp only [gcrRegexp, Regexp.opt, Regexp.matches_cat_iff, Regexp.matches_alt_iff,
    Regexp.matches_lit_iff, Regexp.matches_any_iff, Regexp.matches_eps_iff,
    Regexp.matches_plus_any_iff]
  constructor
  · rintro ⟨p, t, hp, ⟨_, t1, rfl, ⟨_, t2, rfl, ⟨_, t3, rfl, ⟨_, t4, ⟨c, hc, rfl⟩,
      ⟨_, _, rfl, rfl, rfl⟩, rfl⟩, rfl⟩, rfl⟩, rfl⟩, rfl⟩
    refine ⟨c, hc, ?_⟩
    rcases hp with ⟨q, _, ⟨hq1, hq2⟩, rfl, rfl⟩ | rfl
    · right
      exact ⟨q, hq1, hq2, by simp⟩
    · left
      simp
  · rintro ⟨c, hc, rfl | ⟨q, hq1, hq2, rfl⟩⟩
    · exact ⟨[], _, Or.inr rfl, ⟨_, _, rfl, ⟨_, _, rfl, ⟨_, _, rfl, ⟨_, _, ⟨c, hc, rfl⟩,
        ⟨_, _, rfl, rfl, rfl⟩, rfl⟩, rfl⟩, rfl⟩, rfl⟩, rfl⟩
    · exact ⟨q ++ ['.'], _, Or.inl ⟨q, _, ⟨hq1, hq2⟩, rfl, rfl⟩,
        ⟨_, _, rfl, ⟨_, _, rfl, ⟨_, _, rfl, ⟨_, _, ⟨c, hc, rfl⟩,
        ⟨_, _, rfl, rfl, rfl⟩, rfl⟩, rfl⟩, rfl⟩, rfl⟩, by simp⟩

/-- The same on strings: a host is taken for a Google registry exactly when it
is `gcr`, any one character but the newline, `io`, alone or after a non-empty
newline-free prefix and a dot. -/
theorem regexpMatch_gcr_iff (host : String) :
    regexpMatch gcrRegexp host = true ↔
      ∃ c, c ≠ '\n' ∧
        (host = "gcr" ++ String.singleton c ++ "io" ∨
          ∃ q : String, q ≠ "" ∧ '\n' ∉ q.data ∧
            host = q ++ ".gcr" ++ String.singleton c ++ "io") := by
  unfold regexpMatch
  rw [Regexp.matchChars_iff, gcrRegexp_matches_iff]
  constructor
  · rintro ⟨c, hc, h | ⟨q, hq1, hq2, h⟩⟩
    · exact ⟨c, hc, Or.inl (String.ext (by simp [h, String.data_append, String.singleton]))⟩
    · refine ⟨c, hc, Or.inr ⟨String.mk q, ?_, hq2, ?_⟩⟩
      · intro hq
        exact hq1 (by simpa using congrArg String.data hq)
      · exact String.ext (by simp [h, String.data_append, String.singleton])
  · rintro ⟨c, hc, rfl | ⟨q, hq1, hq2, rfl⟩⟩
    · exact ⟨c, hc, Or.inl (by simp [String.data_append, String.singleton])⟩
    · refine ⟨c, hc, Or.inr ⟨q.data, ?_, hq2, by simp [String.data_append, String.singleton]⟩⟩
      intro hq
      exact hq1 (String.ext (by simp [hq]))

/-! ## The scripted dialogue: lemmas -/

theorem bind_apply {α β : Type} (x : Script α) (f : α → Script β) (env : Env) :
    (x >>= f) env =
      match x env with
      | Option.none => Option.none
      | some (.error e, env1) => some (.error e, env1)
      | some (.ok a, env1) => f a env1 := rfl

theorem pure_apply {α : Type} (a : α) (env : Env) :
    (pure a : Script α) env = some (.ok a, env) := rfl

theorem fail_apply {α : Type} (e : Error) (env : Env) :
    (Script.fail e : Script α) env = some (.error e, env) := rfl

theorem Question_cons (q : QuestionOptions) (r : Except Error String)
    (rest : List (Except Error String)) (ls : List (Except Error AuthConfig))
    (tr : List Call) :
    Question q ⟨r :: rest, ls, tr⟩ = some (r, ⟨rest, ls, tr ++ [Call.Question q]⟩) := rfl

theorem Login_cons (url user password : String) (c s r : Bool) (res : Except Error AuthConfig)
    (qs : List (Except Error String)) (rest : List (Except Error AuthConfig))
    (tr : List Call) :
    Login url user password c s r ⟨qs, res :: rest, tr⟩
      = some (.ok res, ⟨qs, rest, tr ++ [Call.Login url user password c s r]⟩) := rfl

theorem Warn_apply (msg : String) (env : Env) :
    Warn msg env = some (.ok (), ⟨env.questions, env.logins, env.trace ++ [Call.Warn msg]⟩) :=
  rfl

theorem StartWait_apply (msg : String) (env : Env) :
    StartWait msg env
      = some (.ok (), ⟨env.questions, env.logins, env.trace ++ [Call.StartWait msg]⟩) := rfl

theorem StopWait_apply (env : Env) :
    StopWait env = some (.ok (), ⟨env.questions, env.logins, env.trace ++ [Call.StopWait]⟩) :=
  rfl

theorem useDockerHub_starts (d : Deps) :
    ∃ s : String, useDockerHub d = "Use hub.docker.com" ++ s := by
  unfold useDockerHub
  split
  · split
    · exact ⟨_, rfl⟩
    · exact ⟨"", by decide⟩
  · exact ⟨"", by decide⟩

theorem useDockerHub_ne_skip (d : Deps) : useDockerHub d ≠ skipImagePush := by
  obtain ⟨s, hs⟩ := useDockerHub_starts d
  intro h
  have h1 := congrArg (fun t : String => t.data.head?) (hs.symm.trans h)
  simp [String.data_append, skipImagePush] at h1

theorem useDockerHub_ne_other (d : Deps) : useOtherRegistry ≠ useDockerHub d := by
  obtain ⟨s, hs⟩ := useDockerHub_starts d
  intro h
  have h1 := congrArg (fun t : String => t.data.take 5) (h.trans hs)
  simp [String.data_append, useOtherRegistry] at h1

theorem other_ne_skip : useOtherRegistry ≠ skipImagePush := by decide

theorem getRegistryURL_skip (d : Deps) (rest : List (Except Error String))
    (ls : List (Except Error AuthConfig)) (tr : List Call) :
    getRegistryURL d ⟨.ok skipImagePush :: rest, ls, tr⟩
      = some (.ok "", ⟨rest, ls, tr ++ [Call.Question (registryQuestion d)]⟩) := by
  simp [getRegistryURL, bind_apply, Question_cons, pure_apply]

/-- The Docker Hub option with a silent login that finds a user name. -/
theorem getRegistryURL_hub_authenticated (d : Deps) (rest : List (Except Error String))
    (a : AuthConfig) (ha : a.Username ≠ "")
    (ls : List (Except Error AuthConfig)) (tr : List Call) :
    getRegistryURL d ⟨.ok (useDockerHub d) :: rest, .ok a :: ls, tr⟩
      = some (.ok "hub.docker.com", ⟨rest, ls, tr ++ [Call.Question (registryQuestion d),
          Call.StartWait "Checking registry authentication",
          Call.Login "hub.docker.com" "" "" true false false, Call.StopWait]⟩) := by
  simp [getRegistryURL, bind_apply, Question_cons, pure_apply, useDockerHub_ne_skip,
    StartWait_apply, StopWait_apply, Login_cons, ha, dockerHubHostname]

theorem getRegistryURL_other_authenticated (d : Deps) (typed : String)
    (rest : List (Except Error String))
    (a : AuthConfig) (ha : a.Username ≠ "")
    (ls : List (Except Error AuthConfig)) (tr : List Call) :
    getRegistryURL d ⟨.ok useOtherRegistry :: .ok typed :: rest, .ok a :: ls, tr⟩
      = some (.ok (stringsTrim typed "/ "), ⟨rest, ls, tr ++ [Call.Question (registryQuestion d),
          Call.Question registryURLQuestion,
          Call.StartWait "Checking registry authentication",
          Call.Login (stringsTrim typed "/ ") "" "" true false false, Call.StopWait]⟩) := by
  simp [getRegistryURL, bind_apply, Question_cons, pure_apply, other_ne_skip,
    useDockerHub_ne_other,
    StartWait_apply, StopWait_apply, Login_cons, ha]

theorem attemptAnswers_length (fails : List (String × String × Error)) :
    (attemptAnswers fails).length = 2 * fails.length := by
  induction fails with
  | nil => rfl
  | cons x more ih =>
    obtain ⟨u, p, e⟩ := x
    simp [attemptAnswers, ih]
    omega

theorem loop_success (url : String) :
    ∀ (fails : List (String × String × Error)) (fuel : Nat) (u p : String) (a : AuthConfig)
      (rest : List (Except Error String)) (restL : List (Except Error AuthConfig))
      (tr : List Call), fails.length < fuel →
      dockerHubLoginLoop url fuel
          ⟨attemptAnswers fails ++ .ok u :: .ok p :: rest,
            attemptResults fails ++ .ok a :: restL, tr⟩
        = some (.ok (), ⟨rest, restL, tr ++ attemptCalls url fails ++
            [Call.Question usernameQuestion, Call.Question passwordQuestion,
             Call.Login url u p false true true]⟩)
  | [], fuel, u, p, a, rest, restL, tr, h => by
    obtain ⟨n, rfl⟩ : ∃ n, fuel = n + 1 := ⟨fuel - 1, by simp at h; omega⟩
    simp [dockerHubLoginLoop, attemptAnswers, attemptResults, attemptCalls, bind_apply,
      Question_cons, Login_cons, pure_apply]
  | (u1, p1, e1) :: more, fuel, u, p, a, rest, restL, tr, h => by
    obtain ⟨n, rfl⟩ : ∃ n, fuel = n + 1 := ⟨fuel - 1, by simp at h; omega⟩
    have hn : more.length < n := by simp at h; omega
    simp [dockerHubLoginLoop, attemptAnswers, attemptResults, attemptCalls, bind_apply,
      Question_cons, Login_cons, pure_apply, Warn_apply, loop_success url more n u p a rest restL _ hn]

theorem loop_username_error (url : String) :
    ∀ (fails : List (String × String × Error)) (fuel : Nat) (e : Error)
      (rest : List (Except Error String)) (restL : List (Except Error AuthConfig))
      (tr : List Call), fails.length < fuel →
      dockerHubLoginLoop url fuel
          ⟨attemptAnswers fails ++ .error e :: rest, attemptResults fails ++ restL, tr⟩
        = some (.error e, ⟨rest, restL, tr ++ attemptCalls url fails ++
            [Call.Question usernameQuestion]⟩)
  | [], fuel, e, rest, restL, tr, h => by
    obtain ⟨n, rfl⟩ : ∃ n, fuel = n + 1 := ⟨fuel - 1, by simp at h; omega⟩
    simp [dockerHubLoginLoop, attemptAnswers, attemptResults, attemptCalls, bind_apply,
      Question_cons]
  | (u1, p1, e1) :: more, fuel, e, rest, restL, tr, h => by
    obtain ⟨n, rfl⟩ : ∃ n, fuel = n + 1 := ⟨fuel - 1, by simp at h; omega⟩
    have hn : more.length < n := by simp at h; omega
    simp [dockerHubLoginLoop, attemptAnswers, attemptResults, attemptCalls, bind_apply,
      Question_cons, Login_cons, pure_apply, Warn_apply, loop_username_error url more n e rest restL _ hn]

theorem loop_password_error (url : String) :
    ∀ (fails : List (String × String × Error)) (fuel : Nat) (u : String) (e : Error)
      (rest : List (Except Error String)) (restL : List (Except Error AuthConfig))
      (tr : List Call), fails.length < fuel →
      dockerHubLoginLoop url fuel
          ⟨attemptAnswers fails ++ .ok u :: .error e :: rest, attemptResults fails ++ restL, tr⟩
        = some (.error e, ⟨rest, restL, tr ++ attemptCalls url fails ++
            [Call.Question usernameQuestion, Call.Question passwordQuestion]⟩)
  | [], fuel, u, e, rest, restL, tr, h => by
    obtain ⟨n, rfl⟩ : ∃ n, fuel = n + 1 := ⟨fuel - 1, by simp at h; omega⟩
    simp [dockerHubLoginLoop, attemptAnswers, attemptResults, attemptCalls, bind_apply,
      Question_cons]
  | (u1, p1, e1) :: more, fuel, u, e, rest, restL, tr, h => by
    obtain ⟨n, rfl⟩ : ∃ n, fuel = n + 1 := ⟨fuel - 1, by simp at h; omega⟩
    have hn : more.length < n := by simp at h; omega
    simp [dockerHubLoginLoop, attemptAnswers, attemptResults, attemptCalls, bind_apply,
      Question_cons, Login_cons, pure_apply, Warn_apply, loop_password_error url more n u e rest restL _ hn]

/-- The host `hub.docker.com` with a failed silent login: what is left is the
credential loop. -/
theorem getRegistryURL_hub_unauthenticated (d : Deps) (typed : Option String)
    (silent : Except Error AuthConfig)
    (htyped : ∀ t, typed = some t → stringsTrim t "/ " = dockerHubHostname)
    (hsilent : (∃ e, silent = .error e) ∨ ∃ a0 : AuthConfig, silent = .ok a0 ∧ a0.Username = "")
    (qs : List (Except Error String)) (ls : List (Except Error AuthConfig)) (tr : List Call) :
    getRegistryURL d ⟨hubSelection d typed ++ qs, silent :: ls, tr⟩
      = (dockerHubLogin "hub.docker.com" >>= fun _ => (pure "hub.docker.com" : Script String))
          ⟨qs, ls, tr ++ hubSelectionCalls d typed ++ silentCheckCalls⟩ := by
  rcases hsilent with ⟨e, rfl⟩ | ⟨a0, rfl, h0⟩ <;> cases typed with
  | none =>
    simp [getRegistryURL, hubSelection, hubSelectionCalls, silentCheckCalls, bind_apply,
      Question_cons, pure_apply, useDockerHub_ne_skip, StartWait_apply, StopWait_apply,
      Login_cons, Warn_apply, dockerHubHostname, *]
  | some t =>
    have ht := htyped t rfl
    simp [getRegistryURL, hubSelection, hubSelectionCalls, silentCheckCalls, bind_apply,
      Question_cons, pure_apply, other_ne_skip, useDockerHub_ne_other, StartWait_apply,
      StopWait_apply, Login_cons, Warn_apply, ht, *]
    simp [dockerHubHostname, bind_apply]

theorem dockerHubLoginLoop_fuel (url : String) :
    ∀ (fuel1 fuel2 : Nat) (env : Env), env.questions.length ≤ fuel1 →
      env.questions.length ≤ fuel2 →
      dockerHubLoginLoop url fuel1 env = dockerHubLoginLoop url fuel2 env
  | 0, 0, _, _, _ => rfl
  | 0, m + 1, ⟨qs, ls, tr⟩, h1, _ => by
    have hq : qs = [] := List.length_eq_zero.mp (Nat.le_zero.mp h1)
    subst hq
    simp [dockerHubLoginLoop, bind_apply, Question]
  | n + 1, 0, ⟨qs, ls, tr⟩, _, h2 => by
    have hq : qs = [] := List.length_eq_zero.mp (Nat.le_zero.mp h2)
    subst hq
    simp [dockerHubLoginLoop, bind_apply, Question]
  | n + 1, m + 1, ⟨qs, ls, tr⟩, h1, h2 => by
    match qs, h1, h2 with
    | [], _, _ => simp [dockerHubLoginLoop, bind_apply, Question]
    | [.error e], _, _ => simp [dockerHubLoginLoop, bind_apply, Question_cons]
    | [.ok u], _, _ => simp [dockerHubLoginLoop, bind_apply, Question_cons, Question]
    | .error e :: _ :: _, _, _ => simp [dockerHubLoginLoop, bind_apply, Question_cons]
    | .ok u :: .error e :: _, _, _ => simp [dockerHubLoginLoop, bind_apply, Question_cons]
    | .ok u :: .ok p :: rest, h1, h2 =>
      match ls with
      | [] => simp [dockerHubLoginLoop, bind_apply, Question_cons, Login]
      | .ok a :: ls1 => simp [dockerHubLoginLoop, bind_apply, Question_cons, Login_cons, pure_apply]
      | .error e :: ls1 =>
        have h3 : rest.length ≤ n := by simp at h1; omega
        have h4 : rest.length ≤ m := by simp at h2; omega
        simp [dockerHubLoginLoop, bind_apply, Question_cons, Login_cons, Warn_apply,
          dockerHubLoginLoop_fuel url n m ⟨rest, ls1, _⟩ h3 h4]

/-- More fuel than scripted answers never changes the outcome of the loop. -/
theorem dockerHubLogin_fuel (url : String) (fuel : Nat) (env : Env)
    (h : env.questions.length ≤ fuel) :
    dockerHubLoginLoop url fuel env = dockerHubLogin url env :=
  dockerHubLoginLoop_fuel url fuel env.questions.length env h (Nat.le_refl _)

theorem checkDockerInstalled_apply (d : Deps) (env : Env) :
    checkDockerInstalled d env
      = some (.ok (), ⟨env.questions, env.logins, env.trace ++ dockerCheckCalls d⟩) := by
  unfold checkDockerInstalled dockerCheckCalls
  cases d.Ping <;> cases d.dockerRun <;> simp [pure_apply, Warn_apply]

theorem resolveImageName_apply (d : Deps) (imageName kubeContext : String) (env : Env)
    (hctx : d.GetCurrentContext = .ok kubeContext)
    (hcli : d.NewDockerClientWithMinikube kubeContext = none) :
    resolveImageName d imageName env
      = (getRegistryURL d >>= fun registryURL =>
          imageNameForRegistry d registryURL imageName "")
          ⟨env.questions, env.logins, env.trace ++ dockerCheckCalls d⟩ := by
  simp [resolveImageName, hctx, Script.ofExcept, bind_apply, hcli,
    checkDockerInstalled_apply, Script.ret]

theorem login_hint_message (h : String) :
    "Registry authentication failed for " ++ h ++ ".\n         " ++ registryLoginHint (" " ++ h)
      = "Registry authentication failed for " ++ h ++ ".\n         " ++
          ("Please login via `docker login " ++ h ++ "` and try again.") := by
  have e : ("Please login via `docker login" : String) ++ " " = "Please login via `docker login " := by
    decide
  simp only [registryLoginHint, ← String.append_assoc, e]

theorem getRegistryURL_other_unauthenticated (d : Deps) (typed : String)
    (silent : Except Error AuthConfig)
    (rest : List (Except Error String)) (restL : List (Except Error AuthConfig))
    (tr : List Call)
    (hhost : stringsTrim typed "/ " ≠ dockerHubHostname)
    (hsilent : (∃ e0, silent = .error e0) ∨
      ∃ a0 : AuthConfig, silent = .ok a0 ∧ a0.Username = "") :
    getRegistryURL d ⟨.ok useOtherRegistry :: .ok typed :: rest, silent :: restL, tr⟩
      = some (.error ("Registry authentication failed for " ++ stringsTrim typed "/ " ++
            ".\n         " ++
            ("Please login via `docker login " ++ stringsTrim typed "/ " ++ "` and try again.")),
          ⟨rest, restL, tr ++
            [Call.Question (registryQuestion d), Call.Question registryURLQuestion,
             Call.StartWait "Checking registry authentication",
             Call.Login (stringsTrim typed "/ ") "" "" true false false,
             Call.StopWait]⟩) := by
  rw [← login_hint_message]
  rcases hsilent with ⟨e, rfl⟩ | ⟨a0, rfl, h0⟩ <;>
    simp [getRegistryURL, bind_apply, Question_cons, pure_apply, other_ne_skip,
      useDockerHub_ne_other, StartWait_apply, StopWait_apply, Login_cons, hhost, fail_apply, *]

theorem newImageConfig_of_resolved (d : Deps) (imageName dockerfile context n : String)
    (env env1 : Env) (hres : resolveImageName d imageName env = some (.ok n, env1)) :
    newImageConfigFromDockerfile d imageName dockerfile context env
      = (chooseBuildTarget d dockerfile initialImageConfig >>= fun c =>
          (pure (setImageSpecifics d c n dockerfile context) : Script ImageConfig)) env1 := by
  simp [newImageConfigFromDockerfile, bind_apply, hres]

theorem newImageConfig_of_error (d : Deps) (imageName dockerfile context : String) (e : Error)
    (env env1 : Env) (hres : resolveImageName d imageName env = some (.error e, env1)) :
    newImageConfigFromDockerfile d imageName dockerfile context env
      = some (.error e, env1) := by
  simp [newImageConfigFromDockerfile, bind_apply, hres]

theorem chooseBuildTarget_no_stage (d : Deps) (dockerfile : String) (c : ImageConfig)
    (env : Env) (h : d.GetDockerfileTargets dockerfile = .ok []) :
    chooseBuildTarget d dockerfile c env = some (.ok c, env) := by
  simp [chooseBuildTarget, h, Script.ofExcept, bind_apply, Script.ret, pure_apply]

theorem chooseBuildTarget_stages (d : Deps) (dockerfile : String) (c : ImageConfig)
    (stages : List String) (answer : String) (rest : List (Except Error String))
    (ls : List (Except Error AuthConfig)) (tr : List Call)
    (h : d.GetDockerfileTargets dockerfile = .ok stages) (hne : stages ≠ []) :
    chooseBuildTarget d dockerfile c ⟨.ok answer :: rest, ls, tr⟩
      = some (.ok (if answer ≠ targetNone then
            { c with Build := some { Docker := some { Options := some { Target := answer } } } }
          else c),
          ⟨rest, ls, tr ++ [Call.Question (targetQuestion (stages ++ [targetNone]))]⟩) := by
  have hl : 0 < stages.length := List.length_pos.mpr hne
  by_cases ha : answer = targetNone <;>
    simp [chooseBuildTarget, h, Script.ofExcept, bind_apply, Script.ret, pure_apply,
      Question_cons, hl, ha, hne]

theorem setImageSpecifics_image (d : Deps) (c : ImageConfig) (n dockerfile context : String) :
    (setImageSpecifics d c n dockerfile context).Image = n := by
  unfold setImageSpecifics
  simp only []
  split_ifs <;> rfl

theorem setImageSpecifics_skipPush (d : Deps) (c : ImageConfig) (dockerfile context : String) :
    (setImageSpecifics d c noRegistryImage dockerfile context).skipPush = some true := by
  unfold setImageSpecifics ImageConfig.skipPush
  simp only []
  split_ifs <;> simp

theorem setImageSpecifics_target (d : Deps) (c : ImageConfig) (n dockerfile context : String) :
    (setImageSpecifics d c n dockerfile context).target = c.target := by
  rcases c with ⟨img, tags, df0, ctx0, cps, build, irh, psor, adi⟩
  rcases build with _ | ⟨dis, dock, kan⟩
  · simp only [setImageSpecifics, ImageConfig.target]
    split_ifs <;> rfl
  · rcases dock with _ | ⟨sp, opts⟩
    · simp only [setImageSpecifics, ImageConfig.target]
      split_ifs <;> rfl
    · simp only [setImageSpecifics, ImageConfig.target]
      split_ifs <;> rfl

theorem setImageSpecifics_no_skipPush (d : Deps) (c : ImageConfig) (n dockerfile context : String)
    (hn : n ≠ noRegistryImage) :
    (setImageSpecifics d c n dockerfile context).skipPush = c.skipPush := by
  rcases c with ⟨img, tags, df0, ctx0, cps, build, irh, psor, adi⟩
  simp only [setImageSpecifics, ImageConfig.skipPush, if_neg hn]
  split_ifs <;> rfl

theorem chooseBuildTarget_skipPush (d : Deps) (dockerfile : String) (env env2 : Env)
    (c : ImageConfig)
    (h : chooseBuildTarget d dockerfile initialImageConfig env = some (.ok c, env2)) :
    c.skipPush = none := by
  unfold chooseBuildTarget at h
  rw [bind_apply] at h
  cases ht : d.GetDockerfileTargets dockerfile with
  | error e => simp [ht, Script.ofExcept, Script.fail] at h
  | ok stages =>
    simp only [ht, Script.ofExcept, Script.ret] at h
    split_ifs at h with hl
    · rw [bind_apply] at h
      obtain ⟨qs, ls, tr⟩ := env
      cases qs with
      | nil => simp [Question] at h
      | cons r rest =>
        rw [Question_cons] at h
        cases r with
        | error e => simp at h
        | ok answer =>
          simp only at h
          split_ifs at h <;>
            · simp only [pure_apply, Option.some.injEq, Prod.mk.injEq, Except.ok.injEq] at h
              rw [← h.1]
              rfl
    · simp only [pure_apply, Option.some.injEq, Prod.mk.injEq, Except.ok.injEq] at h
      rw [← h.1]
      rfl

theorem newImageConfig_success_inv (d : Deps) (imageName dockerfile context : String)
    (env env2 : Env) (cfg : ImageConfig)
    (hrun : newImageConfigFromDockerfile d imageName dockerfile context env
      = some (.ok cfg, env2)) :
    ∃ n env1 c, resolveImageName d imageName env = some (.ok n, env1) ∧
      chooseBuildTarget d dockerfile initialImageConfig env1 = some (.ok c, env2) ∧
      cfg = setImageSpecifics d c n dockerfile context := by
  cases hres : resolveImageName d imageName env with
  | none => simp [newImageConfigFromDockerfile, bind_apply, hres] at hrun
  | some r =>
    obtain ⟨res, env1⟩ := r
    cases res with
    | error e => simp [newImageConfigFromDockerfile, bind_apply, hres] at hrun
    | ok n =>
      rw [newImageConfig_of_resolved d imageName dockerfile context n env env1 hres,
        bind_apply] at hrun
      cases hc : chooseBuildTarget d dockerfile initialImageConfig env1 with
      | none => simp [hc] at hrun
      | some r2 =>
        obtain ⟨res2, env3⟩ := r2
        cases res2 with
        | error e => simp [hc] at hrun
        | ok c =>
          simp [hc, pure_apply] at hrun
          exact ⟨n, env1, c, rfl, by rw [hc, hrun.2], hrun.1.symm⟩

theorem imageNameForRegistry_registry (d : Deps) (registryURL imageName answer : String)
    (rest : List (Except Error String)) (ls : List (Except Error AuthConfig)) (tr : List Call)
    (h : registryURL ≠ "") :
    ∃ calls, imageNameForRegistry d registryURL imageName ""
        ⟨.ok answer :: rest, ls, tr⟩
      = some (.ok (d.GetStrippedDockerImageName answer).1, ⟨rest, ls, tr ++ calls⟩) := by
  unfold imageNameForRegistry
  rw [if_neg h]
  by_cases h1 : registryURL = "hub.docker.com"
  · rw [if_pos h1]
    exact ⟨_, by simp [bind_apply, StartWait_apply, StopWait_apply, Question_cons, pure_apply]; rfl⟩
  · rw [if_neg h1]
    by_cases h2 : regexpMatch gcrRegexp registryURL = true
    · rw [if_pos h2]
      exact ⟨_, by simp [bind_apply, Question_cons, pure_apply]; rfl⟩
    · rw [if_neg h2]
      exact ⟨_, by simp [bind_apply, Question_cons, pure_apply]; rfl⟩

theorem attemptCalls_count_username (url : String) (fails : List (String × String × Error)) :
    (attemptCalls url fails).countP Call.isUsernamePrompt = fails.length := by
  induction fails with
  | nil => rfl
  | cons x more ih =>
    obtain ⟨u, p, e⟩ := x
    have h1 : Call.isUsernamePrompt (Call.Question usernameQuestion) = true := by decide
    have h2 : passwordQuestion ≠ usernameQuestion := by decide
    simp [attemptCalls, List.countP_cons, ih, h1, h2, Call.isUsernamePrompt]

theorem attemptCalls_count_password (url : String) (fails : List (String × String × Error)) :
    (attemptCalls url fails).countP Call.isPasswordPrompt = fails.length := by
  induction fails with
  | nil => rfl
  | cons x more ih =>
    obtain ⟨u, p, e⟩ := x
    have h1 : usernameQuestion ≠ passwordQuestion := by decide
    have h2 : Call.isPasswordPrompt (Call.Question passwordQuestion) = true := by decide
    simp [attemptCalls, List.countP_cons, ih, h1, h2, Call.isPasswordPrompt]

theorem attemptCalls_count_login (url : String) (fails : List (String × String × Error)) :
    (attemptCalls url fails).countP Call.isExplicitLogin = fails.length := by
  induction fails with
  | nil => rfl
  | cons x more ih =>
    obtain ⟨u, p, e⟩ := x
    simp [attemptCalls, List.countP_cons, ih, Call.isExplicitLogin]

theorem hubSelectionCalls_count (d : Deps) (typed : Option String) :
    (hubSelectionCalls d typed ++ silentCheckCalls).countP Call.isUsernamePrompt = 0 ∧
    (hubSelectionCalls d typed ++ silentCheckCalls).countP Call.isPasswordPrompt = 0 ∧
    (hubSelectionCalls d typed ++ silentCheckCalls).countP Call.isExplicitLogin = 0 := by
  have h1 : (registryQuestion d).Question ≠ usernameQuestion.Question := by
    simp [registryQuestion, usernameQuestion]
  have h2 : (registryQuestion d).Question ≠ passwordQuestion.Question := by
    simp [registryQuestion, passwordQuestion]
  have h3 : registryQuestion d ≠ usernameQuestion := fun h => h1 (by rw [h])
  have h4 : registryQuestion d ≠ passwordQuestion := fun h => h2 (by rw [h])
  have h5 : registryURLQuestion ≠ usernameQuestion := by decide
  have h6 : registryURLQuestion ≠ passwordQuestion := by decide
  cases typed <;>
    simp [hubSelectionCalls, silentCheckCalls, List.countP_cons, Call.isUsernamePrompt,
      Call.isPasswordPrompt, Call.isExplicitLogin, h3, h4, h5, h6]

/-! ## The claims -/

/-- Claim C1. Whenever `getRegistryURL` returns the empty host, which it does
when the skip-push option is picked in the registry question, and the stage
extraction and the stage question (asked only when there are stages) succeed,
`newImageConfigFromDockerfile` returns a config whose `Image` is the
placeholder `devspace` and whose `Build.Docker.SkipPush` is true, for every
image name, Dockerfile path, context path, stage list and stage answer; a
chosen build target is kept next to it. -/
theorem skipPush_choice_forces_placeholder (d : Deps)
    (imageName dockerfile context kubeContext : String) (stages : List String)
    (answer : String) (rest : List (Except Error String)) (env env1 : Env)
    (hctx : d.GetCurrentContext = .ok kubeContext)
    (hcli : d.NewDockerClientWithMinikube kubeContext = none)
    (htargets : d.GetDockerfileTargets dockerfile = .ok stages)
    (hreg : getRegistryURL d ⟨env.questions, env.logins, env.trace ++ dockerCheckCalls d⟩
      = some (.ok "", env1))
    (hstage : env1.questions = if stages = [] then rest else .ok answer :: rest) :
    (∀ (qs : List (Except Error String)) (ls : List (Except Error AuthConfig))
      (tr : List Call),
      getRegistryURL d ⟨.ok skipImagePush :: qs, ls, tr⟩
        = some (.ok "", ⟨qs, ls, tr ++ [Call.Question (registryQuestion d)]⟩)) ∧
    ∃ cfg tr1,
      newImageConfigFromDockerfile d imageName dockerfile context env
        = some (.ok cfg, ⟨rest, env1.logins, tr1⟩) ∧
      cfg.Image = "devspace" ∧ cfg.skipPush = some true ∧
      cfg.target = (if stages = [] ∨ answer = targetNone then none else some answer) := by
  refine ⟨getRegistryURL_skip d, ?_⟩
  have hres : resolveImageName d imageName env = some (.ok noRegistryImage, env1) := by
    rw [resolveImageName_apply d imageName kubeContext _ hctx hcli, bind_apply, hreg]
    simp [imageNameForRegistry, pure_apply]
  obtain ⟨qs1, ls1, tr1⟩ := env1
  simp only at hstage
  by_cases hs : stages = []
  · subst hs
    rw [if_pos rfl] at hstage
    subst hstage
    refine ⟨setImageSpecifics d initialImageConfig noRegistryImage dockerfile context,
      tr1, ?_,
      setImageSpecifics_image _ _ _ _ _, setImageSpecifics_skipPush _ _ _ _, ?_⟩
    · rw [newImageConfig_of_resolved d imageName dockerfile context _ _ _ hres,
        bind_apply, chooseBuildTarget_no_stage d dockerfile _ _ htargets]
      rfl
    · rw [setImageSpecifics_target]
      simp [initialImageConfig, ImageConfig.target]
  · rw [if_neg hs] at hstage
    subst hstage
    refine ⟨setImageSpecifics d (if answer ≠ targetNone then
        { initialImageConfig with
          Build := some { Docker := some { Options := some { Target := answer } } } }
        else initialImageConfig) noRegistryImage dockerfile context,
      tr1 ++ [Call.Question (targetQuestion (stages ++ [targetNone]))], ?_,
      setImageSpecifics_image _ _ _ _ _, setImageSpecifics_skipPush _ _ _ _, ?_⟩
    · rw [newImageConfig_of_resolved d imageName dockerfile context _ _ _ hres,
        bind_apply, chooseBuildTarget_stages d dockerfile _ stages answer rest ls1 _ htargets hs]
      rfl
    · rw [setImageSpecifics_target]
      by_cases ha : answer = targetNone <;>
        simp [hs, ha, initialImageConfig, ImageConfig.target]

theorem skipPush_choice_forces_placeholder_witness :
    ∃ cfg tr1,
      newImageConfigFromDockerfile exampleStagesDeps "myrepo/app" "./Dockerfile" "./"
          ⟨[.ok skipImagePush, .ok "build"], [], []⟩
        = some (.ok cfg, ⟨[], [], tr1⟩) ∧
      cfg.Image = "devspace" ∧ cfg.skipPush = some true ∧
      cfg.target = (if ["build", "run"] = ([] : List String) ∨ "build" = targetNone then none
        else some "build") :=
  (skipPush_choice_forces_placeholder exampleStagesDeps "myrepo/app" "./Dockerfile" "./"
    "minikube" ["build", "run"] "build" []
    ⟨[.ok skipImagePush, .ok "build"], [], []⟩
    ⟨[.ok "build"], [], [Call.Question (registryQuestion exampleStagesDeps)]⟩
    rfl rfl rfl rfl rfl).2

/-- Claim C2, which the code departs from. The pattern of line 123 leaves the
dot of `gcr.io` unescaped: the host `gcr-io`, which is neither `gcr.io` nor a
prefix followed by `.gcr.io`, matches it, so that
`newImageConfigFromDockerfile` asks the Google-registry question for it and
not the generic one. The hosts `gcr.io` and `eu.gcr.io` match, and
`hub.docker.com.evil.com` does not. -/
theorem gcr_pattern_dot_unescaped :
    regexpMatch gcrRegexp "gcr-io" = true ∧
    ("gcr-io" : String) ≠ "gcr.io" ∧
    (¬ ∃ p : String, "gcr-io" = p ++ ".gcr.io") ∧
    regexpMatch gcrRegexp "gcr.io" = true ∧
    regexpMatch gcrRegexp "eu.gcr.io" = true ∧
    regexpMatch gcrRegexp "hub.docker.com.evil.com" = false ∧
    ∀ (d : Deps) (imageName answer : String) (rest : List (Except Error String))
      (ls : List (Except Error AuthConfig)) (tr : List Call),
      imageNameForRegistry d "gcr-io" imageName "" ⟨.ok answer :: rest, ls, tr⟩
        = some (.ok (d.GetStrippedDockerImageName answer).1, ⟨rest, ls, tr ++
            [Call.Question (gcrImageQuestion "gcr-io"
              (match d.gcloudProject with
                | .ok project => stringsTrimSpace project
                | .error _ => "myGCloudProject") imageName)]⟩) := by
  have hm : regexpMatch gcrRegexp "gcr-io" = true := by decide
  refine ⟨hm, by decide, ?_, by decide, by decide, by decide, ?_⟩
  · rintro ⟨p, hp⟩
    have hl := congrArg String.length hp
    rw [String.length_append] at hl
    have h6 : ("gcr-io" : String).length = 6 := by decide
    have h7 : (".gcr.io" : String).length = 7 := by decide
    omega
  · intro d imageName answer rest ls tr
    have h1 : ("gcr-io" : String) ≠ "" := by decide
    have h2 : ("gcr-io" : String) ≠ "hub.docker.com" := by decide
    unfold imageNameForRegistry
    rw [if_neg h1, if_neg h2, if_pos hm]
    simp [bind_apply, Question_cons, pure_apply]

/-- Claim C3. In `getRegistryURL` with host `hub.docker.com` (the Docker Hub
option, or that host typed as other registry) and a failed silent check (a
login error or an empty user name), for every script in which `fails.length`
explicit logins fail and the next one succeeds, the result is
`hub.docker.com` without error after exactly `fails.length + 1` user name
prompts, password prompts and explicit logins, each login with the values just
entered, a failed login being followed by a warning and the next turn; a
prompt error at the user name or at the password of a turn is returned as it
is, with no login call after it. -/
theorem dockerHub_credential_loop (d : Deps) (typed : Option String)
    (silent : Except Error AuthConfig) (fails : List (String × String × Error))
    (u p : String) (a : AuthConfig) (e : Error)
    (rest : List (Except Error String)) (restL : List (Except Error AuthConfig))
    (tr : List Call)
    (htyped : ∀ t, typed = some t → stringsTrim t "/ " = dockerHubHostname)
    (hsilent : (∃ e0, silent = .error e0) ∨
      ∃ a0 : AuthConfig, silent = .ok a0 ∧ a0.Username = "") :
    getRegistryURL d
        ⟨hubSelection d typed ++ (attemptAnswers fails ++ .ok u :: .ok p :: rest),
          silent :: (attemptResults fails ++ .ok a :: restL), tr⟩
      = some (.ok "hub.docker.com", ⟨rest, restL,
          tr ++ hubSelectionCalls d typed ++ silentCheckCalls ++
            attemptCalls "hub.docker.com" fails ++
            [Call.Question usernameQuestion, Call.Question passwordQuestion,
             Call.Login "hub.docker.com" u p false true true]⟩) ∧
    (hubSelectionCalls d typed ++ silentCheckCalls ++ attemptCalls "hub.docker.com" fails ++
        [Call.Question usernameQuestion, Call.Question passwordQuestion,
         Call.Login "hub.docker.com" u p false true true]).countP Call.isUsernamePrompt
      = fails.length + 1 ∧
    (hubSelectionCalls d typed ++ silentCheckCalls ++ attemptCalls "hub.docker.com" fails ++
        [Call.Question usernameQuestion, Call.Question passwordQuestion,
         Call.Login "hub.docker.com" u p false true true]).countP Call.isPasswordPrompt
      = fails.length + 1 ∧
    (hubSelectionCalls d typed ++ silentCheckCalls ++ attemptCalls "hub.docker.com" fails ++
        [Call.Question usernameQuestion, Call.Question passwordQuestion,
         Call.Login "hub.docker.com" u p false true true]).countP Call.isExplicitLogin
      = fails.length + 1 ∧
    getRegistryURL d
        ⟨hubSelection d typed ++ (attemptAnswers fails ++ .error e :: rest),
          silent :: (attemptResults fails ++ restL), tr⟩
      = some (.error e, ⟨rest, restL,
          tr ++ hubSelectionCalls d typed ++ silentCheckCalls ++
            attemptCalls "hub.docker.com" fails ++ [Call.Question usernameQuestion]⟩) ∧
    getRegistryURL d
        ⟨hubSelection d typed ++ (attemptAnswers fails ++ .ok u :: .error e :: rest),
          silent :: (attemptResults fails ++ restL), tr⟩
      = some (.error e, ⟨rest, restL,
          tr ++ hubSelectionCalls d typed ++ silentCheckCalls ++
            attemptCalls "hub.docker.com" fails ++
            [Call.Question usernameQuestion, Call.Question passwordQuestion]⟩) := by
  obtain ⟨c1, c2, c3⟩ := hubSelectionCalls_count d typed
  have hu1 : Call.isUsernamePrompt (Call.Question usernameQuestion) = true := by decide
  have hu2 : passwordQuestion ≠ usernameQuestion := by decide
  have hp1 : usernameQuestion ≠ passwordQuestion := by decide
  have hp2 : Call.isPasswordPrompt (Call.Question passwordQuestion) = true := by decide
  refine ⟨?_, ?_, ?_, ?_, ?_, ?_⟩
  · rw [getRegistryURL_hub_unauthenticated d typed silent htyped hsilent, bind_apply]
    have hl := loop_success "hub.docker.com" fails
      (attemptAnswers fails ++ .ok u :: .ok p :: rest).length u p a rest restL
      (tr ++ hubSelectionCalls d typed ++ silentCheckCalls)
      (by simp [attemptAnswers_length]; omega)
    simp only [dockerHubLogin]
    rw [hl]
    rfl
  · rw [List.countP_append, List.countP_append, c1, attemptCalls_count_username]
    simp [List.countP_cons, hu1, hu2, Call.isUsernamePrompt]
  · rw [List.countP_append, List.countP_append, c2, attemptCalls_count_password]
    simp [List.countP_cons, hp1, hp2, Call.isPasswordPrompt]
  · rw [List.countP_append, List.countP_append, c3, attemptCalls_count_login]
    simp [List.countP_cons, Call.isExplicitLogin]
  · rw [getRegistryURL_hub_unauthenticated d typed silent htyped hsilent, bind_apply]
    have hl := loop_username_error "hub.docker.com" fails
      (attemptAnswers fails ++ .error e :: rest).length e rest restL
      (tr ++ hubSelectionCalls d typed ++ silentCheckCalls)
      (by simp [attemptAnswers_length]; omega)
    simp only [dockerHubLogin]
    rw [hl]
  · rw [getRegistryURL_hub_unauthenticated d typed silent htyped hsilent, bind_apply]
    have hl := loop_password_error "hub.docker.com" fails
      (attemptAnswers fails ++ .ok u :: .error e :: rest).length u e rest restL
      (tr ++ hubSelectionCalls d typed ++ silentCheckCalls)
      (by simp [attemptAnswers_length]; omega)
    simp only [dockerHubLogin]
    rw [hl]

theorem dockerHub_credential_loop_witness :
    getRegistryURL exampleDeps
        ⟨hubSelection exampleDeps (some "hub.docker.com/") ++
          (attemptAnswers [("dev", "wrong", "unauthorized")] ++ .ok "dev" :: .ok "secret" :: []),
          .error "no credentials" ::
            (attemptResults [("dev", "wrong", "unauthorized")] ++
              .ok { Username := "dev" } :: []), []⟩
      = some (.ok "hub.docker.com", ⟨[], [],
          [] ++ hubSelectionCalls exampleDeps (some "hub.docker.com/") ++ silentCheckCalls ++
            attemptCalls "hub.docker.com" [("dev", "wrong", "unauthorized")] ++
            [Call.Question usernameQuestion, Call.Question passwordQuestion,
             Call.Login "hub.docker.com" "dev" "secret" false true true]⟩) :=
  (dockerHub_credential_loop exampleDeps (some "hub.docker.com/") (.error "no credentials")
    [("dev", "wrong", "unauthorized")] "dev" "secret" { Username := "dev" } "aborted" [] [] []
    (by intro t h; cases h; decide) (Or.inl ⟨"no credentials", rfl⟩)).1

/-- Claim C4. With `Use other registry` chosen and a trimmed host `h` other
than `hub.docker.com`, a silent login that returns an error or an empty user
name makes `getRegistryURL` return at once the error naming `h` with the hint
`Please login via ‘docker login h’ and try again.`: the only login call is
the silent one and no user name or password is asked; and
`newImageConfigFromDockerfile` returns that error and no config. -/
theorem other_registry_unauthenticated_fails (d : Deps)
    (imageName dockerfile context kubeContext typed : String)
    (silent : Except Error AuthConfig)
    (rest : List (Except Error String)) (restL : List (Except Error AuthConfig))
    (tr : List Call)
    (hhost : stringsTrim typed "/ " ≠ dockerHubHostname)
    (hsilent : (∃ e0, silent = .error e0) ∨
      ∃ a0 : AuthConfig, silent = .ok a0 ∧ a0.Username = "")
    (hctx : d.GetCurrentContext = .ok kubeContext)
    (hcli : d.NewDockerClientWithMinikube kubeContext = none) :
    getRegistryURL d ⟨.ok useOtherRegistry :: .ok typed :: rest, silent :: restL, tr⟩
      = some (.error ("Registry authentication failed for " ++ stringsTrim typed "/ " ++
            ".\n         " ++
            ("Please login via `docker login " ++ stringsTrim typed "/ " ++ "` and try again.")),
          ⟨rest, restL, tr ++
            [Call.Question (registryQuestion d), Call.Question registryURLQuestion,
             Call.StartWait "Checking registry authentication",
             Call.Login (stringsTrim typed "/ ") "" "" true false false,
             Call.StopWait]⟩) ∧
    newImageConfigFromDockerfile d imageName dockerfile context
        ⟨.ok useOtherRegistry :: .ok typed :: rest, silent :: restL, tr⟩
      = some (.error ("Registry authentication failed for " ++ stringsTrim typed "/ " ++
            ".\n         " ++
            ("Please login via `docker login " ++ stringsTrim typed "/ " ++ "` and try again.")),
          ⟨rest, restL, tr ++ dockerCheckCalls d ++
            [Call.Question (registryQuestion d), Call.Question registryURLQuestion,
             Call.StartWait "Checking registry authentication",
             Call.Login (stringsTrim typed "/ ") "" "" true false false,
             Call.StopWait]⟩) := by
  refine ⟨getRegistryURL_other_unauthenticated d typed silent rest restL tr hhost hsilent, ?_⟩
  apply newImageConfig_of_error
  rw [resolveImageName_apply d imageName kubeContext _ hctx hcli, bind_apply,
    getRegistryURL_other_unauthenticated d typed silent rest restL _ hhost hsilent]

theorem other_registry_unauthenticated_fails_witness :
    newImageConfigFromDockerfile exampleDeps "app" "./Dockerfile" ""
        ⟨.ok useOtherRegistry :: .ok "registry.example.com/" :: [],
          .ok { Username := "" } :: [], []⟩
      = some (.error ("Registry authentication failed for " ++
            stringsTrim "registry.example.com/" "/ " ++ ".\n         " ++
            ("Please login via `docker login " ++ stringsTrim "registry.example.com/" "/ " ++
              "` and try again.")),
          ⟨[], [], [] ++ dockerCheckCalls exampleDeps ++
            [Call.Question (registryQuestion exampleDeps), Call.Question registryURLQuestion,
             Call.StartWait "Checking registry authentication",
             Call.Login (stringsTrim "registry.example.com/" "/ ") "" "" true false false,
             Call.StopWait]⟩) :=
  (other_registry_unauthenticated_fails exampleDeps "app" "./Dockerfile" "" "minikube"
    "registry.example.com/" (.ok { Username := "" }) [] [] []
    (by decide) (Or.inr ⟨{ Username := "" }, rfl, rfl⟩) rfl rfl).2

/-- Claim C5 fails as stated: for `localhost:5000/app:v2` the tag is
`5000/app`, the piece between the first two colons, and not the whole
remainder `5000/app:v2` after the first colon. -/
theorem imageName_tag_not_remainder :
    (newImageConfigFromImageName exampleDeps "localhost:5000/app:v2" "" "").Image
      = "localhost" ∧
    (newImageConfigFromImageName exampleDeps "localhost:5000/app:v2" "" "").Tags
      = ["5000/app"] ∧
    (newImageConfigFromImageName exampleDeps "localhost:5000/app:v2" "" "").Tags
      ≠ ["5000/app:v2"] := by
  decide

/-- Claim C5, amended. For every raw image string with a `:`,
`newImageConfigFromImageName` takes as `Image` the part before the first `:`
and as tag the part between the first `:` and the next one (the whole
remainder when there is no further `:`), with `Tags = [tag]` when the tag is
not empty, whether or not a Dockerfile is given; `app:v2` gives `app` and
`[v2]`. Every string with a `:` has such a name, tag and rest. -/
theorem imageName_with_colon (d : Deps) (name tag more dockerfile context : String)
    (hname : ':' ∉ name.data) (htag : ':' ∉ tag.data)
    (hmore : more = "" ∨ ∃ m : String, more = ":" ++ m) :
    (newImageConfigFromImageName d (name ++ ":" ++ tag ++ more) dockerfile context).Image
      = name ∧
    (newImageConfigFromImageName d (name ++ ":" ++ tag ++ more) dockerfile context).Tags
      = (if tag = "" then [] else [tag]) ∧
    (newImageConfigFromImageName d "app:v2" dockerfile context).Image = "app" ∧
    (newImageConfigFromImageName d "app:v2" dockerfile context).Tags = ["v2"] ∧
    (∀ raw : String, ':' ∈ raw.data →
      ∃ name1 tag1 more1 : String, raw = name1 ++ ":" ++ tag1 ++ more1 ∧
        ':' ∉ name1.data ∧ ':' ∉ tag1.data ∧
        (more1 = "" ∨ ∃ m : String, more1 = ":" ++ m)) := by
  have hm : more.data = [] ∨ ∃ m, more.data = ':' :: m := by
    rcases hmore with h | ⟨m, h⟩
    · left; simp [h]
    · right; exact ⟨m.data, by simp [h]⟩
  obtain ⟨pieces, hp⟩ := splitChars_two ':' name.data tag.data more.data hname htag hm
  have hs : stringsSplit (name ++ ":" ++ tag ++ more) ':' = name :: tag :: pieces.map String.mk := by
    simp [stringsSplit, String.data_append] at hp ⊢
    simp [hp]
  have hs2 : stringsSplit "app:v2" ':' = ["app", "v2"] := by decide
  refine ⟨?_, ?_, ?_, ?_, colon_decomposition⟩
  · simp only [newImageConfigFromImageName, hs]
    split_ifs <;> simp
  · simp only [newImageConfigFromImageName, hs]
    by_cases ht : tag = "" <;> simp [ht] <;> split_ifs <;> simp
  · simp only [newImageConfigFromImageName, hs2]
    split_ifs <;> simp
  · simp only [newImageConfigFromImageName, hs2]
    simp
    split_ifs <;> simp

theorem imageName_with_colon_witness :
    (newImageConfigFromImageName exampleDeps ("localhost" ++ ":" ++ "5000/app" ++ ":v2")
        "" "").Image = "localhost" ∧
    (newImageConfigFromImageName exampleDeps ("localhost" ++ ":" ++ "5000/app" ++ ":v2")
        "" "").Tags = (if ("5000/app" : String) = "" then [] else ["5000/app"]) ∧
    (newImageConfigFromImageName exampleDeps "app:v2" "" "").Image = "app" ∧
    (newImageConfigFromImageName exampleDeps "app:v2" "" "").Tags = ["v2"] :=
  have h := imageName_with_colon exampleDeps "localhost" "5000/app" ":v2" "" ""
    (by decide) (by decide) (Or.inr ⟨"v2", by decide⟩)
  ⟨h.1, h.2.1, h.2.2.1, h.2.2.2.1⟩

/-- Claim C6. For every raw image string without a `:`,
`newImageConfigFromImageName` returns `Image = raw`, with `Tags = [latest]`
when the Dockerfile path is empty and no tag when a Dockerfile path is
given. -/
theorem imageName_without_colon (d : Deps) (raw dockerfile context : String)
    (h : ':' ∉ raw.data) :
    (newImageConfigFromImageName d raw dockerfile context).Image = raw ∧
    (dockerfile = "" →
      (newImageConfigFromImageName d raw dockerfile context).Tags = ["latest"]) ∧
    (dockerfile ≠ "" →
      (newImageConfigFromImageName d raw dockerfile context).Tags = []) := by
  have hs : stringsSplit raw ':' = [raw] := by
    simp [stringsSplit, splitChars_of_not_mem _ _ h]
  refine ⟨?_, ?_, ?_⟩
  · simp only [newImageConfigFromImageName, hs]
    split_ifs <;> simp
  · intro hd
    subst hd
    simp [newImageConfigFromImageName, hs]
  · intro hd
    simp only [newImageConfigFromImageName, hs]
    simp [hd]
    split_ifs <;> simp

theorem imageName_without_colon_witness :
    (newImageConfigFromImageName exampleDeps "myrepo/app" "" "").Image = "myrepo/app" ∧
    (("" : String) = "" →
      (newImageConfigFromImageName exampleDeps "myrepo/app" "" "").Tags = ["latest"]) ∧
    (("" : String) ≠ "" →
      (newImageConfigFromImageName exampleDeps "myrepo/app" "" "").Tags = []) :=
  imageName_without_colon exampleDeps "myrepo/app" "" "" (by decide)

/-- Claim C7. With an empty Dockerfile path `newImageConfigFromImageName`
returns, for every image name and context path, a config whose build is
disabled with no Docker or Kaniko section, whose `Dockerfile` and `Context`
are unset and whose `CreatePullSecret` is true; `myrepo/app:1.2` gives image
`myrepo/app` with tag `1.2`. -/
theorem imageName_prebuilt (d : Deps) (imageName context : String) :
    (newImageConfigFromImageName d imageName "" context).Build
      = some { Disabled := some true, Docker := none, Kaniko := none } ∧
    (newImageConfigFromImageName d imageName "" context).Dockerfile = "" ∧
    (newImageConfigFromImageName d imageName "" context).Context = "" ∧
    (newImageConfigFromImageName d imageName "" context).CreatePullSecret = some true ∧
    newImageConfigFromImageName d "myrepo/app:1.2" "" "" =
      { Image := "myrepo/app", Tags := ["1.2"], CreatePullSecret := some true,
        Build := some { Disabled := some true } } := by
  refine ⟨?_, ?_, ?_, ?_, ?_⟩
  · simp only [newImageConfigFromImageName]; split_ifs <;> simp
  · simp only [newImageConfigFromImageName]; split_ifs <;> simp
  · simp only [newImageConfigFromImageName]; split_ifs <;> simp
  · simp only [newImageConfigFromImageName]; split_ifs <;> simp
  · have hs : stringsSplit "myrepo/app:1.2" ':' = ["myrepo/app", "1.2"] := by decide
    simp only [newImageConfigFromImageName, hs]
    simp

/-- Claim C8. Once the image name is resolved, the build target depends on the
extracted stages and the answer only. With no stage nothing is asked (the
dialogue is left as it was) and no target is set. With stages exactly one
question is asked, whose options are the stages in order followed by the
sentinel `[none] (build complete Dockerfile)`; the result has
`Build.Docker.Options.Target` equal to the answer when the answer is not the
sentinel, and no target when it is. Stages `build`, `run` with answer `build`
give target `build`. -/
theorem build_target_from_stage_answer (d : Deps) (imageName dockerfile context n : String)
    (env env1 : Env) (stages : List String)
    (hres : resolveImageName d imageName env = some (.ok n, env1))
    (htargets : d.GetDockerfileTargets dockerfile = .ok stages) :
    (stages = [] →
      newImageConfigFromDockerfile d imageName dockerfile context env
        = some (.ok (setImageSpecifics d initialImageConfig n dockerfile context), env1) ∧
      (setImageSpecifics d initialImageConfig n dockerfile context).target = none) ∧
    (stages ≠ [] → ∀ (answer : String) (rest : List (Except Error String)),
      env1.questions = .ok answer :: rest →
      newImageConfigFromDockerfile d imageName dockerfile context env
        = some (.ok (setImageSpecifics d
              (if answer = "[none] (build complete Dockerfile)" then initialImageConfig
               else { initialImageConfig with
                 Build := some
                   { Disabled := none
                     Docker := some { SkipPush := none, Options := some { Target := answer } }
                     Kaniko := none } })
              n dockerfile context),
            ⟨rest, env1.logins, env1.trace ++
              [Call.Question
                { Question := "Which build stage (target) within your Dockerfile do you want to use for development?\n  Choose `build` for quickstart projects."
                  DefaultValue := ""
                  ValidationRegexPattern := ""
                  ValidationMessage := ""
                  ValidationFunc := false
                  Options := stages ++ ["[none] (build complete Dockerfile)"]
                  IsPassword := false }]⟩) ∧
      (setImageSpecifics d
          (if answer = "[none] (build complete Dockerfile)" then initialImageConfig
           else { initialImageConfig with
             Build := some
               { Disabled := none
                 Docker := some { SkipPush := none, Options := some { Target := answer } }
                 Kaniko := none } })
          n dockerfile context).target
        = (if answer = "[none] (build complete Dockerfile)" then none else some answer)) := by
  refine ⟨?_, ?_⟩
  · intro hs
    subst hs
    refine ⟨?_, ?_⟩
    · rw [newImageConfig_of_resolved d imageName dockerfile context _ _ _ hres,
        bind_apply, chooseBuildTarget_no_stage d dockerfile _ _ htargets]
      rfl
    · rw [setImageSpecifics_target]
      rfl
  · intro hs answer rest hq
    obtain ⟨qs, ls, tr1⟩ := env1
    simp only at hq
    subst hq
    refine ⟨?_, ?_⟩
    · rw [newImageConfig_of_resolved d imageName dockerfile context _ _ _ hres,
        bind_apply, chooseBuildTarget_stages d dockerfile _ stages answer rest ls _ htargets hs]
      by_cases ha : answer = "[none] (build complete Dockerfile)"
      · have ha2 : answer = targetNone := ha
        simp only [ha, ha2, ne_eq, not_true_eq_false, if_false, if_true]
        rfl
      · have ha2 : answer ≠ targetNone := ha
        simp only [ha, ha2, ne_eq, not_false_eq_true, if_false, if_true]
        rfl
    · rw [setImageSpecifics_target]
      by_cases ha : answer = "[none] (build complete Dockerfile)" <;>
        simp [ha, initialImageConfig, ImageConfig.target]

theorem build_target_from_stage_answer_witness :
    newImageConfigFromDockerfile exampleStagesDeps "app" "./Dockerfile" ""
        ⟨[.ok (useDockerHub exampleStagesDeps), .ok "dev/app", .ok "build"],
          [.ok { Username := "dev" }], []⟩
      = some (.ok
          { Image := "dev/app"
            Tags := []
            Dockerfile := ""
            Context := ""
            CreatePullSecret := none
            Build := some
              { Disabled := none
                Docker := some { SkipPush := none, Options := some { Target := "build" } }
                Kaniko := none }
            InjectRestartHelper := true
            PreferSyncOverRebuild := true
            AppendDockerfileInstructions := ["USER root"] },
          ⟨[], [],
            [Call.Question (registryQuestion exampleStagesDeps),
             Call.StartWait "Checking registry authentication",
             Call.Login "hub.docker.com" "" "" true false false, Call.StopWait,
             Call.StartWait "Checking Docker credentials", Call.StopWait,
             Call.Question (dockerHubImageQuestion "" "app"),
             Call.Question
               { Question := "Which build stage (target) within your Dockerfile do you want to use for development?\n  Choose `build` for quickstart projects."
                 Options := ["build", "run", "[none] (build complete Dockerfile)"] }]⟩) :=
  ((build_target_from_stage_answer exampleStagesDeps "app" "./Dockerfile" "" "dev/app"
    ⟨[.ok (useDockerHub exampleStagesDeps), .ok "dev/app", .ok "build"],
      [.ok { Username := "dev" }], []⟩
    ⟨[.ok "build"], [],
      [Call.Question (registryQuestion exampleStagesDeps),
       Call.StartWait "Checking registry authentication",
       Call.Login "hub.docker.com" "" "" true false false, Call.StopWait,
       Call.StartWait "Checking Docker credentials", Call.StopWait,
       Call.Question (dockerHubImageQuestion "" "app")]⟩
    ["build", "run"] rfl rfl).2 (by decide) "build" [] rfl).1

/-- Claim C9 fails as stated: the typed host `\tgcr.io` is used and returned
unchanged, so that the host begins with a whitespace character. -/
theorem host_keeps_tab :
    getRegistryURL exampleDeps
        ⟨[.ok useOtherRegistry, .ok "\tgcr.io"], [.ok { Username := "dev" }], []⟩
      = some (.ok "\tgcr.io", ⟨[], [],
          [Call.Question (registryQuestion exampleDeps), Call.Question registryURLQuestion,
           Call.StartWait "Checking registry authentication",
           Call.Login "\tgcr.io" "" "" true false false,
           Call.StopWait]⟩) ∧
    ("\tgcr.io" : String).data.head? = some '\t' ∧ Char.isWhitespace '\t' = true := by
  refine ⟨?_, by decide, by decide⟩
  rfl

/-- Claim C9, amended. With `Use other registry` chosen, the host used for
the silent login, returned by `getRegistryURL` and then classified by
`newImageConfigFromDockerfile` is the typed text without its surrounding
slashes and spaces: it neither begins nor ends with `/` or the space
character, and the typed text is that host between a prefix and a suffix made
of these two characters only. The classification acts on that host: empty, it
gives the placeholder name with no further question; `hub.docker.com`, the
Docker Hub question; a match of the pattern of line 123, the question with
default `host/project/name`; any other host, the question with default
`host/myuser/name`. -/
theorem other_registry_host_trimmed (d : Deps) (typed : String) (a : AuthConfig)
    (rest : List (Except Error String)) (restL : List (Except Error AuthConfig))
    (tr : List Call) (ha : a.Username ≠ "") :
    getRegistryURL d ⟨.ok useOtherRegistry :: .ok typed :: rest, .ok a :: restL, tr⟩
      = some (.ok (stringsTrim typed "/ "), ⟨rest, restL, tr ++
          [Call.Question (registryQuestion d), Call.Question registryURLQuestion,
           Call.StartWait "Checking registry authentication",
           Call.Login (stringsTrim typed "/ ") "" "" true false false,
           Call.StopWait]⟩) ∧
    (∀ c, (stringsTrim typed "/ ").data.head? = some c → c ≠ '/' ∧ c ≠ ' ') ∧
    (∀ c, (stringsTrim typed "/ ").data.getLast? = some c → c ≠ '/' ∧ c ≠ ' ') ∧
    (∃ pre suf : List Char, typed.data = pre ++ (stringsTrim typed "/ ").data ++ suf ∧
      (∀ c ∈ pre, c = '/' ∨ c = ' ') ∧ (∀ c ∈ suf, c = '/' ∨ c = ' ')) ∧
    ∀ (imageName kubeContext answer : String),
      d.GetCurrentContext = .ok kubeContext →
      d.NewDockerClientWithMinikube kubeContext = none →
      (stringsTrim typed "/ " = "" →
        resolveImageName d imageName
            ⟨.ok useOtherRegistry :: .ok typed :: rest, .ok a :: restL, tr⟩
          = some (.ok "devspace", ⟨rest, restL, tr ++ dockerCheckCalls d ++
              [Call.Question (registryQuestion d), Call.Question registryURLQuestion,
               Call.StartWait "Checking registry authentication",
               Call.Login (stringsTrim typed "/ ") "" "" true false false,
               Call.StopWait]⟩)) ∧
      (stringsTrim typed "/ " = "hub.docker.com" →
        resolveImageName d imageName
            ⟨.ok useOtherRegistry :: .ok typed :: .ok answer :: rest, .ok a :: restL, tr⟩
          = some (.ok (d.GetStrippedDockerImageName answer).1,
              ⟨rest, restL, tr ++ dockerCheckCalls d ++
                [Call.Question (registryQuestion d), Call.Question registryURLQuestion,
                 Call.StartWait "Checking registry authentication",
                 Call.Login (stringsTrim typed "/ ") "" "" true false false,
                 Call.StopWait,
                 Call.StartWait "Checking Docker credentials", Call.StopWait,
                 Call.Question
                   { Question := "Which image name do you want to use on Docker Hub?"
                     DefaultValue :=
                       (match d.GetAuthConfig "" true with
                        | .ok dockerAuthConfig => dockerAuthConfig.Username
                        | .error _ => "") ++ "/" ++ imageName
                     ValidationRegexPattern := ""
                     ValidationMessage := "Please enter a valid image name for Docker Hub (e.g. myregistry.com/user/repository | allowed charaters: /, a-z, 0-9)"
                     ValidationFunc := true
                     Options := []
                     IsPassword := false }]⟩)) ∧
      (stringsTrim typed "/ " ≠ "" → stringsTrim typed "/ " ≠ "hub.docker.com" →
        regexpMatch gcrRegexp (stringsTrim typed "/ ") = true →
        resolveImageName d imageName
            ⟨.ok useOtherRegistry :: .ok typed :: .ok answer :: rest, .ok a :: restL, tr⟩
          = some (.ok (d.GetStrippedDockerImageName answer).1,
              ⟨rest, restL, tr ++ dockerCheckCalls d ++
                [Call.Question (registryQuestion d), Call.Question registryURLQuestion,
                 Call.StartWait "Checking registry authentication",
                 Call.Login (stringsTrim typed "/ ") "" "" true false false,
                 Call.StopWait,
                 Call.Question
                   { Question := "Which image name do you want to push to?"
                     DefaultValue := stringsTrim typed "/ " ++ "/" ++
                       (match d.gcloudProject with
                        | .ok project => stringsTrimSpace project
                        | .error _ => "myGCloudProject") ++ "/" ++ imageName
                     ValidationRegexPattern := ""
                     ValidationMessage := "Please enter a valid Docker image name (e.g. myregistry.com/user/repository | allowed charaters: /, a-z, 0-9)"
                     ValidationFunc := true
                     Options := []
                     IsPassword := false }]⟩)) ∧
      (stringsTrim typed "/ " ≠ "" → stringsTrim typed "/ " ≠ "hub.docker.com" →
        regexpMatch gcrRegexp (stringsTrim typed "/ ") = false →
        resolveImageName d imageName
            ⟨.ok useOtherRegistry :: .ok typed :: .ok answer :: rest, .ok a :: restL, tr⟩
          = some (.ok (d.GetStrippedDockerImageName answer).1,
              ⟨rest, restL, tr ++ dockerCheckCalls d ++
                [Call.Question (registryQuestion d), Call.Question registryURLQuestion,
                 Call.StartWait "Checking registry authentication",
                 Call.Login (stringsTrim typed "/ ") "" "" true false false,
                 Call.StopWait,
                 Call.Question
                   { Question := "Which image name do you want to push to?"
                     DefaultValue := stringsTrim typed "/ " ++ "/" ++ "myuser" ++ "/" ++
                       imageName
                     ValidationRegexPattern := ""
                     ValidationMessage := "Please enter a valid docker image name (e.g. myregistry.com/user/repository)"
                     ValidationFunc := true
                     Options := []
                     IsPassword := false }]⟩)) := by
  have hcut : ("/ " : String).data = ['/', ' '] := by decide
  obtain ⟨h1, h2, pre, suf, h3, h4, h5⟩ := trimChars_spec ['/', ' '] typed.data
  refine ⟨getRegistryURL_other_authenticated d typed rest a ha restL tr, ?_, ?_, ?_, ?_⟩
  · intro c hc
    have := h1 c (by simpa [stringsTrim, hcut] using hc)
    simpa using this
  · intro c hc
    have := h2 c (by simpa [stringsTrim, hcut] using hc)
    simpa using this
  · refine ⟨pre, suf, ?_, ?_, ?_⟩
    · simpa [stringsTrim, hcut] using h3
    · intro c hc; simpa using h4 c hc
    · intro c hc; simpa using h5 c hc
  · intro imageName kubeContext answer hctx hcli
    have hhub : ("hub.docker.com" : String) ≠ "" := by decide
    refine ⟨?_, ?_, ?_, ?_⟩
    · intro he
      rw [resolveImageName_apply d imageName kubeContext _ hctx hcli, bind_apply,
        getRegistryURL_other_authenticated d typed rest a ha restL _]
      simp [imageNameForRegistry, he, pure_apply, noRegistryImage]
    · intro he
      rw [resolveImageName_apply d imageName kubeContext _ hctx hcli, bind_apply,
        getRegistryURL_other_authenticated d typed _ a ha restL _]
      simp [imageNameForRegistry, he, hhub, pure_apply, bind_apply, StartWait_apply,
        StopWait_apply, Question_cons, dockerHubImageQuestion]
    · intro hne hnh hm
      rw [resolveImageName_apply d imageName kubeContext _ hctx hcli, bind_apply,
        getRegistryURL_other_authenticated d typed _ a ha restL _]
      simp [imageNameForRegistry, hne, hnh, hm, pure_apply, bind_apply, Question_cons,
        gcrImageQuestion]
    · intro hne hnh hm
      rw [resolveImageName_apply d imageName kubeContext _ hctx hcli, bind_apply,
        getRegistryURL_other_authenticated d typed _ a ha restL _]
      simp [imageNameForRegistry, hne, hnh, hm, pure_apply, bind_apply, Question_cons,
        otherImageQuestion]

theorem other_registry_host_trimmed_witness :
    getRegistryURL exampleDeps
        ⟨[.ok useOtherRegistry, .ok " /eu.gcr.io/ ", .ok "eu.gcr.io/proj/app"],
          [.ok { Username := "dev" }], []⟩
      = some (.ok "eu.gcr.io", ⟨[.ok "eu.gcr.io/proj/app"], [],
          [Call.Question (registryQuestion exampleDeps), Call.Question registryURLQuestion,
           Call.StartWait "Checking registry authentication",
           Call.Login "eu.gcr.io" "" "" true false false,
           Call.StopWait]⟩) ∧
    resolveImageName exampleDeps "app"
        ⟨[.ok useOtherRegistry, .ok " /eu.gcr.io/ ", .ok "eu.gcr.io/proj/app"],
          [.ok { Username := "dev" }], []⟩
      = some (.ok "eu.gcr.io/proj/app", ⟨[], [],
          [Call.Question (registryQuestion exampleDeps), Call.Question registryURLQuestion,
           Call.StartWait "Checking registry authentication",
           Call.Login "eu.gcr.io" "" "" true false false,
           Call.StopWait,
           Call.Question
             { Question := "Which image name do you want to push to?"
               DefaultValue := "eu.gcr.io/myGCloudProject/app"
               ValidationMessage := "Please enter a valid Docker image name (e.g. myregistry.com/user/repository | allowed charaters: /, a-z, 0-9)"
               ValidationFunc := true }]⟩) :=
  ⟨(other_registry_host_trimmed exampleDeps " /eu.gcr.io/ " { Username := "dev" }
      [.ok "eu.gcr.io/proj/app"] [] [] (by decide)).1,
    ((other_registry_host_trimmed exampleDeps " /eu.gcr.io/ " { Username := "dev" }
      [] [] [] (by decide)).2.2.2.2 "app" "minikube" "eu.gcr.io/proj/app" rfl rfl).2.2.1
      (by decide) (by decide) (by decide)⟩

/-- Claim C10. In every successful run of `newImageConfigFromDockerfile`,
`Build.Docker.SkipPush` is true exactly when the final image name is the
placeholder `devspace` and is unset for every other name; the final name is
the one the name resolution produced, which for every non-empty registry host
is the normalised answer to the image-name question: in a run in which
`getRegistryURL` returned a registry host, `SkipPush` is true exactly when
that normalised answer is `devspace`. -/
theorem skipPush_iff_placeholder_name (d : Deps) (imageName dockerfile context : String)
    (env env2 : Env) (cfg : ImageConfig)
    (hrun : newImageConfigFromDockerfile d imageName dockerfile context env
      = some (.ok cfg, env2)) :
    (cfg.skipPush = some true ↔ cfg.Image = noRegistryImage) ∧
    (cfg.Image ≠ noRegistryImage → cfg.skipPush = none) ∧
    (∀ n env1, resolveImageName d imageName env = some (.ok n, env1) → cfg.Image = n) ∧
    (∀ (registryURL answer : String) (rest : List (Except Error String))
      (ls : List (Except Error AuthConfig)) (tr : List Call), registryURL ≠ "" →
      ∃ calls, imageNameForRegistry d registryURL imageName "" ⟨.ok answer :: rest, ls, tr⟩
        = some (.ok (d.GetStrippedDockerImageName answer).1, ⟨rest, ls, tr ++ calls⟩)) ∧
    (∀ (kubeContext host answer : String) (envR : Env) (rest : List (Except Error String)),
      d.GetCurrentContext = .ok kubeContext →
      d.NewDockerClientWithMinikube kubeContext = none →
      getRegistryURL d ⟨env.questions, env.logins, env.trace ++ dockerCheckCalls d⟩
        = some (.ok host, envR) →
      host ≠ "" → envR.questions = .ok answer :: rest →
      cfg.Image = (d.GetStrippedDockerImageName answer).1 ∧
      (cfg.skipPush = some true ↔ (d.GetStrippedDockerImageName answer).1 = "devspace")) ∧
    (cfg.skipPush = some true ↔ cfg.Image = "devspace") := by
  obtain ⟨n, env1, c, hres, hc, rfl⟩ := newImageConfig_success_inv d imageName dockerfile context env env2 cfg hrun
  have hsp := chooseBuildTarget_skipPush d dockerfile env1 env2 c hc
  have himg := setImageSpecifics_image d c n dockerfile context
  have hiff : (setImageSpecifics d c n dockerfile context).skipPush = some true ↔
      (setImageSpecifics d c n dockerfile context).Image = "devspace" := by
    rw [himg]
    constructor
    · intro h
      by_contra hn
      rw [setImageSpecifics_no_skipPush d c n dockerfile context hn, hsp] at h
      cases h
    · intro h
      subst h
      exact setImageSpecifics_skipPush d c dockerfile context
  refine ⟨?_, ?_, ?_, ?_, ?_, hiff⟩
  rotate_left 4
  · intro kubeContext host answer envR rest hctx hcli hreg hhost hq
    obtain ⟨qsR, lsR, trR⟩ := envR
    simp only at hq
    subst hq
    obtain ⟨calls, hcalls⟩ :=
      imageNameForRegistry_registry d host imageName answer rest lsR trR hhost
    have hres2 : resolveImageName d imageName env
        = some (.ok (d.GetStrippedDockerImageName answer).1, ⟨rest, lsR, trR ++ calls⟩) := by
      rw [resolveImageName_apply d imageName kubeContext _ hctx hcli, bind_apply, hreg]
      exact hcalls
    rw [hres] at hres2
    simp only [Option.some.injEq, Prod.mk.injEq, Except.ok.injEq] at hres2
    have hn : n = (d.GetStrippedDockerImageName answer).1 := hres2.1
    refine ⟨by rw [himg, hn], ?_⟩
    rw [hiff, himg, hn]
  · rw [himg]
    constructor
    · intro h
      by_contra hn
      rw [setImageSpecifics_no_skipPush d c n dockerfile context hn, hsp] at h
      cases h
    · intro h
      subst h
      exact setImageSpecifics_skipPush d c dockerfile context
  · rw [himg]
    intro hn
    rw [setImageSpecifics_no_skipPush d c n dockerfile context hn, hsp]
  · intro n' env1' h
    rw [hres] at h
    simp at h
    rw [himg]
    exact h.1
  · intro registryURL answer rest ls tr h
    exact imageNameForRegistry_registry d registryURL imageName answer rest ls tr h

theorem skipPush_iff_placeholder_name_witness :
    newImageConfigFromDockerfile exampleDeps "app" "./Dockerfile" ""
        ⟨[.ok (useDockerHub exampleDeps), .ok "devspace"], [.ok { Username := "dev" }], []⟩
      = some (.ok (setImageSpecifics exampleDeps initialImageConfig "devspace" "./Dockerfile" ""),
          ⟨[], [],
            [Call.Question (registryQuestion exampleDeps),
             Call.StartWait "Checking registry authentication",
             Call.Login "hub.docker.com" "" "" true false false, Call.StopWait,
             Call.StartWait "Checking Docker credentials", Call.StopWait,
             Call.Question (dockerHubImageQuestion "" "app")]⟩) ∧
    (setImageSpecifics exampleDeps initialImageConfig "devspace" "./Dockerfile" "").skipPush
      = some true :=
  ⟨rfl, ((skipPush_iff_placeholder_name exampleDeps "app" "./Dockerfile" ""
    ⟨[.ok (useDockerHub exampleDeps), .ok "devspace"], [.ok { Username := "dev" }], []⟩
    ⟨[], [],
      [Call.Question (registryQuestion exampleDeps),
       Call.StartWait "Checking registry authentication",
       Call.Login "hub.docker.com" "" "" true false false, Call.StopWait,
       Call.StartWait "Checking Docker credentials", Call.StopWait,
       Call.Question (dockerHubImageQuestion "" "app")]⟩
    (setImageSpecifics exampleDeps initialImageConfig "devspace" "./Dockerfile" "")
    rfl).1).mpr rfl⟩

end Configure
